import Mathlib

/-!
# task_manager: the calendar front end (`frontend/src/App.jsx`)

A shallow embedding of the month calendar component: the date keys (`pad2`,
`monthKey`, `dateKey`), the 42-cell grid, the task index `tasksByDate`, and the
asynchronous handlers that talk to the task store.

The component leans on the JavaScript `Date` built-in.  Its behaviour is taken
from the ECMAScript specification (section "Date Objects"): time values are
integers (milliseconds since the epoch, UTC), the calendar is the proleptic
Gregorian one, and the local zone is a fixed offset `tza` (milliseconds east of
UTC); daylight-saving transitions are not modelled.  A number that may be `NaN` is
an `Option Int` with `none` for `NaN`, and so is a `Date`, with `none` for an Invalid Date:
a `Date` whose time value would leave the range of 100,000,000 days around the epoch.
-/

namespace TaskManager

/-! ## ECMAScript time values -/

namespace ES

/-- Milliseconds in a day (`msPerDay`). -/
def msPerDay : Int := 86400000

/-- Day number of a time value: `Day(t) = floor(t / msPerDay)`. -/
def Day (t : Int) : Int := t / msPerDay

/-- Number of days in year `y`: `DaysInYear(y)`. -/
def DaysInYear (y : Int) : Int :=
  if y % 4 ≠ 0 then 365
  else if y % 100 ≠ 0 then 366
  else if y % 400 ≠ 0 then 365
  else 366

/-- Day number of the first day of year `y`: `DayFromYear(y)`. -/
def DayFromYear (y : Int) : Int :=
  365 * (y - 1970) + (y - 1969) / 4 - (y - 1901) / 100 + (y - 1601) / 400

/-- The year a day number falls in.  ECMAScript defines `YearFromTime(t)` as the
largest `y` with `TimeFromYear(y) ≤ t`; this is the usual closed form for it
(400-, 100-, 4- and 1-year cycles counted from 1 January of year 1), and
`YearFromDay_spec` below shows that it meets the definition. -/
def YearFromDay (d : Int) : Int :=
  let n := d + 719162
  let n400 := n / 146097
  let r400 := n % 146097
  let n100 := r400 / 36524
  let r100 := r400 % 36524
  let n4 := r100 / 1461
  let r4 := r100 % 1461
  let n1 := r4 / 365
  let y := 400 * n400 + 100 * n100 + 4 * n4 + n1 + 1
  if n1 = 4 ∨ n100 = 4 then y - 1 else y

/-- The year of a time value: `YearFromTime(t)`. -/
def YearFromTime (t : Int) : Int := YearFromDay (Day t)

/-- Leap-year flag of year `y` as a number, 1 in a leap year and 0 otherwise. -/
def leapOfYear (y : Int) : Int := if DaysInYear y = 366 then 1 else 0

/-- Leap-year flag of the year of `t`: `InLeapYear(t)`. -/
def InLeapYear (t : Int) : Int := leapOfYear (YearFromTime t)

/-- Zero-based day of the year of `t`: `DayWithinYear(t)`. -/
def DayWithinYear (t : Int) : Int := Day t - DayFromYear (YearFromTime t)

/-- The month table of `MonthFromTime`, on a day of the year `dwy` and a leap flag. -/
def monthOfDayWithinYear (dwy leap : Int) : Int :=
  if dwy < 31 then 0
  else if dwy < 59 + leap then 1
  else if dwy < 90 + leap then 2
  else if dwy < 120 + leap then 3
  else if dwy < 151 + leap then 4
  else if dwy < 181 + leap then 5
  else if dwy < 212 + leap then 6
  else if dwy < 243 + leap then 7
  else if dwy < 273 + leap then 8
  else if dwy < 304 + leap then 9
  else if dwy < 334 + leap then 10
  else 11

/-- Month of a time value, 0 = January .. 11 = December: `MonthFromTime(t)`. -/
def MonthFromTime (t : Int) : Int := monthOfDayWithinYear (DayWithinYear t) (InLeapYear t)

/-- The day-of-month table of `DateFromTime`, on a day of the year, a month and a leap flag. -/
def dateOfDayWithinYear (dwy month leap : Int) : Int :=
  if month = 0 then dwy + 1
  else if month = 1 then dwy - 30
  else if month = 2 then dwy - 58 - leap
  else if month = 3 then dwy - 89 - leap
  else if month = 4 then dwy - 119 - leap
  else if month = 5 then dwy - 150 - leap
  else if month = 6 then dwy - 180 - leap
  else if month = 7 then dwy - 211 - leap
  else if month = 8 then dwy - 242 - leap
  else if month = 9 then dwy - 272 - leap
  else if month = 10 then dwy - 303 - leap
  else dwy - 333 - leap

/-- Day of the month of a time value, 1-based: `DateFromTime(t)`. -/
def DateFromTime (t : Int) : Int :=
  dateOfDayWithinYear (DayWithinYear t) (MonthFromTime t) (InLeapYear t)

/-- Day of the week of a time value, 0 = Sunday .. 6 = Saturday: `WeekDay(t)`. -/
def WeekDay (t : Int) : Int := (Day t + 4) % 7

/-- Local time of a UTC time value, in a zone `tza` milliseconds east of UTC. -/
def LocalTime (tza t : Int) : Int := t + tza

/-- The UTC time value of a local time. -/
def UTC (tza t : Int) : Int := t - tza

/-- Days from 1 January to the first day of month `mn` (0..11) in a year with the given
leap flag. -/
def monthStart (mn leap : Int) : Int :=
  if mn = 0 then 0
  else if mn = 1 then 31
  else if mn = 2 then 59 + leap
  else if mn = 3 then 90 + leap
  else if mn = 4 then 120 + leap
  else if mn = 5 then 151 + leap
  else if mn = 6 then 181 + leap
  else if mn = 7 then 212 + leap
  else if mn = 8 then 243 + leap
  else if mn = 9 then 273 + leap
  else if mn = 10 then 304 + leap
  else 334 + leap

/-- The day number of a (year, month, date) triple: `MakeDay`.  The month may lie outside
0..11 and carries into the year; the date may be any integer and is counted from
day 1 of the resulting month. -/
def MakeDay (year month date : Int) : Int :=
  let ym := year + month / 12
  let mn := month % 12
  DayFromYear ym + monthStart mn (leapOfYear ym) + date - 1

/-- The time value of a day number and a time within the day: `MakeDate`. -/
def MakeDate (day time : Int) : Int := day * msPerDay + time

/-- The full year a year argument of the `Date` constructor stands for (`MakeFullYear`): a
year from 0 to 99 stands for 1900 + year, any other integer for itself. -/
def MakeFullYear (year : Int) : Int :=
  if 0 ≤ year ∧ year ≤ 99 then 1900 + year else year

/-- The time value a `Date` keeps (`TimeClip`): `t` itself when it lies within
8.64e15 milliseconds of the epoch, `NaN` otherwise. -/
def TimeClip (t : Int) : Option Int :=
  if -8640000000000000 ≤ t ∧ t ≤ 8640000000000000 then some t else none

end ES

/-! ## The `Date` object, as the component uses it -/

/-- The time value `new Date(year, monthIndex, day)` computes before clipping it: the year
goes through `MakeFullYear`, and the fields name 00:00 of that day in local time. -/
def dateValue (tza year monthIndex day : Int) : Int :=
  let yr := ES.MakeFullYear year
  ES.UTC tza (ES.MakeDate (ES.MakeDay yr monthIndex day) 0)

/-- The `Date` made by `new Date(year, monthIndex, day)`: its time value, or `none` for an
Invalid Date when the time value is out of range. -/
def newDate (tza year monthIndex day : Int) : Option Int :=
  ES.TimeClip (dateValue tza year monthIndex day)

/-- Local year of a valid `Date` with time value `t`: `Date.prototype.getFullYear`.  On an
Invalid Date this and the three getters below return `NaN`, which their callers give as
`none`. -/
def getFullYear (tza t : Int) : Int := ES.YearFromTime (ES.LocalTime tza t)

/-- Local month, 0..11, of a valid `Date`: `Date.prototype.getMonth`. -/
def getMonth (tza t : Int) : Int := ES.MonthFromTime (ES.LocalTime tza t)

/-- Local day of the month of a valid `Date`: `Date.prototype.getDate`. -/
def getDate (tza t : Int) : Int := ES.DateFromTime (ES.LocalTime tza t)

/-- Local day of the week, 0 = Sunday, of a valid `Date`: `Date.prototype.getDay`. -/
def getDay (tza t : Int) : Int := ES.WeekDay (ES.LocalTime tza t)

/-! ## Date keys (lines 5-15) -/

/-- `String(n)` on an integer: its decimal numeral, with a leading minus sign when negative. -/
def numberToString (n : Int) : String := toString n

/-- `String.prototype.padStart(targetLength, padString)`: the string itself when it is long
enough (or the filler is empty), otherwise the filler repeated and cut to the missing length,
followed by the string.  Lengths are counted in characters, which for the numerals padded
here is the count of UTF-16 units. -/
def padStart (s : String) (targetLength : Nat) (padString : String) : String :=
  if targetLength ≤ s.length ∨ padString = "" then s
  else
    let fillLen := targetLength - s.length
    String.mk ((List.replicate fillLen padString.data).flatten.take fillLen ++ s.data)

/-- `pad2(n)`: `String(n).padStart(2, "0")`. -/
def pad2 (n : Int) : String := padStart (numberToString n) 2 "0"

/-- `dateKey(y, m, d)`: the day key, `YYYY-MM-DD` for a year of four digits.  The year is
written as `String(y)` gives it, not padded: `dateKey(99, 12, 1)` is "99-12-01". -/
def dateKey (y m d : Int) : String :=
  numberToString y ++ "-" ++ pad2 m ++ "-" ++ pad2 d

/-- `monthKey(date)`: the month key of a `Date`, from its local fields: `YYYY-MM` for a year
of four digits; the year is not padded.  On an Invalid Date both fields are `NaN` and the key
is "NaN-NaN". -/
def monthKey (tza : Int) (date : Option Int) : String :=
  match date with
  | none => "NaN-NaN"
  | some t => numberToString (getFullYear tza t) ++ "-" ++ pad2 (getMonth tza t + 1)

/-! ## The 42-cell grid (lines 64-94) -/

/-- The `month` tag of a grid cell: `'prev'`, `'current'` or `'next'`. -/
inductive MonthTag where
  | prev
  | current
  | next
deriving DecidableEq, Repr

/-- A grid cell `{ day, month, year, monthIdx }`; `day` may be `NaN`. -/
structure Cell where
  day : Option Int
  month : MonthTag
  year : Int
  monthIdx : Int
deriving DecidableEq, Repr

/-- The values of `i` in `for (let i = n - 1; i >= 0; i--)`: `n - 1` down to `0`. -/
def countDown (n : Int) : List Int :=
  ((List.range n.toNat).map fun (k : Nat) => (k : Int)).reverse

/-- The values of `d` in `for (let d = 1; d <= n; d++)`: `1` up to `n`. -/
def countUp (n : Int) : List Int :=
  (List.range n.toNat).map fun (k : Nat) => (k : Int) + 1

/-- `startWeekday`: the weekday of day 1 of the month, Monday = 0 (lines 66-67); `NaN` when
`firstDay` is an Invalid Date. -/
def startWeekday (tza year monthIndex : Int) : Option Int :=
  (newDate tza year monthIndex 1).map fun firstDay => (getDay tza firstDay + 6) % 7

/-- `daysInMonth` (line 68); `NaN` when the `Date` is invalid. -/
def daysInMonth (tza year monthIndex : Int) : Option Int :=
  (newDate tza year (monthIndex + 1) 0).map fun date => getDate tza date

/-- `daysInPrevMonth` (line 69); `NaN` when the `Date` is invalid. -/
def daysInPrevMonth (tza year monthIndex : Int) : Option Int :=
  (newDate tza year monthIndex 0).map fun date => getDate tza date

/-- The cells pushed by the first loop: the last days of the previous month (lines 74-81).
With `startWeekday` `NaN` the test `startWeekday > 0` fails; with `daysInPrevMonth` `NaN`
the days are `NaN`. -/
def prevCells (tza year monthIndex : Int) : List Cell :=
  let prevYear := if monthIndex = 0 then year - 1 else year
  let prevMonthIdx := if monthIndex = 0 then 11 else monthIndex - 1
  match startWeekday tza year monthIndex with
  | none => []
  | some w =>
    if w > 0 then
      (countDown w).map fun i =>
        { day := (daysInPrevMonth tza year monthIndex).map fun p => p - i,
          month := MonthTag.prev, year := prevYear, monthIdx := prevMonthIdx }
    else []

/-- The cells pushed by the second loop: the days of the month (lines 84-86).  With
`daysInMonth` `NaN` the test `d <= daysInMonth` fails at once. -/
def currentCells (tza year monthIndex : Int) : List Cell :=
  match daysInMonth tza year monthIndex with
  | none => []
  | some n =>
    (countUp n).map fun d =>
      { day := some d, month := MonthTag.current, year := year, monthIdx := monthIndex }

/-- `remaining`: `42 - cells.length` after the first two loops (line 91). -/
def remaining (tza year monthIndex : Int) : Int :=
  42 - ((prevCells tza year monthIndex ++ currentCells tza year monthIndex).length : Int)

/-- The cells pushed by the third loop: the first days of the next month (lines 89-94). -/
def nextCells (tza year monthIndex : Int) : List Cell :=
  let nextYear := if monthIndex = 11 then year + 1 else year
  let nextMonthIdx := if monthIndex = 11 then 0 else monthIndex + 1
  (countUp (remaining tza year monthIndex)).map fun d =>
    { day := some d, month := MonthTag.next, year := nextYear, monthIdx := nextMonthIdx }

/-- The `cells` array built on each render from `year = current.getFullYear()` and
`monthIndex = current.getMonth()`, for a valid `current`: `year` and `monthIndex` are then
integers. -/
def cells (tza year monthIndex : Int) : List Cell :=
  prevCells tza year monthIndex ++ currentCells tza year monthIndex
    ++ nextCells tza year monthIndex

/-! ## The calendar the grid is compared with

These definitions do not come from the component: they state what the proleptic
Gregorian calendar says, for the claims that compare the grid with it. -/

/-- Gregorian leap-year rule. -/
def isLeapYear (y : Int) : Bool :=
  y % 4 = 0 ∧ (y % 100 ≠ 0 ∨ y % 400 = 0)

/-- Number of days of month `mi` (0 = January .. 11 = December) of year `y`. -/
def monthLength (y mi : Int) : Int :=
  if mi = 1 then (if isLeapYear y then 29 else 28)
  else if mi = 3 ∨ mi = 5 ∨ mi = 8 ∨ mi = 10 then 30
  else 31

/-- A (year, month index, day) triple that names a day of the calendar. -/
def validDate (y mi d : Int) : Prop :=
  0 ≤ mi ∧ mi ≤ 11 ∧ 1 ≤ d ∧ d ≤ monthLength y mi

/-- Month offsets of the day-of-week formula below, January first. -/
def weekdayOffset (mi : Int) : Int :=
  if mi = 0 then 0 else if mi = 1 then 3 else if mi = 2 then 2 else if mi = 3 then 5
  else if mi = 4 then 0 else if mi = 5 then 3 else if mi = 6 then 5 else if mi = 7 then 1
  else if mi = 8 then 4 else if mi = 9 then 6 else if mi = 10 then 2 else 4

/-- Weekday of a calendar day, Monday = 0 .. Sunday = 6, by the usual closed formula
(the year is counted from March; the sum below is 0 on a Sunday). -/
def weekdayMon (y mi d : Int) : Int :=
  let y1 := if mi < 2 then y - 1 else y
  ((y1 + y1 / 4 - y1 / 100 + y1 / 400 + weekdayOffset mi + d) % 7 + 6) % 7

/-- The calendar day after (y, mi, d). -/
def nextDay (y mi d : Int) : Int × Int × Int :=
  if d < monthLength y mi then (y, mi, d + 1)
  else if mi < 11 then (y, mi + 1, 1)
  else (y + 1, 0, 1)

/-- The month before (y, mi). -/
def monthBefore (y mi : Int) : Int × Int :=
  if mi = 0 then (y - 1, 11) else (y, mi - 1)

/-- The month after (y, mi). -/
def monthAfter (y mi : Int) : Int × Int :=
  if mi = 11 then (y + 1, 0) else (y, mi + 1)

/-- A grid of 42 cells around month (y, mi): `w` days of the previous month ending on day
`P`, days 1 to `N` of the month, then days of the next month from 1 up to a total of 42. -/
def gridOf (y mi : Int) (w N : Nat) (P : Int) : List Cell :=
  ((List.range w).map fun (k : Nat) =>
      { day := some (P - w + 1 + k), month := MonthTag.prev,
        year := (monthBefore y mi).1, monthIdx := (monthBefore y mi).2 : Cell })
  ++ ((List.range N).map fun (k : Nat) =>
      { day := some ((k : Int) + 1), month := MonthTag.current, year := y,
        monthIdx := mi : Cell })
  ++ ((List.range (42 - w - N)).map fun (k : Nat) =>
      { day := some ((k : Int) + 1), month := MonthTag.next,
        year := (monthAfter y mi).1, monthIdx := (monthAfter y mi).2 : Cell })

/-- The grid the specification describes for month (y, mi): `gridOf` with `w` the
Monday-based weekday of day 1 of the month, `N` the length of the month and `P` the length
of the month before. -/
def expectedGrid (y mi : Int) : List Cell :=
  gridOf y mi (weekdayMon y mi 1).toNat (monthLength y mi).toNat
    (monthLength (monthBefore y mi).1 (monthBefore y mi).2)

/-! ## Tasks and the view state (lines 18-33) -/

/-- A task as the store returns it; the component reads `id`, `task_date`, `title`,
`notes` (possibly `null`) and `is_done`. -/
structure Task where
  id : Nat
  task_date : String
  title : String
  notes : Option String
  is_done : Bool
deriving DecidableEq, Repr

/-- The `editModal` state. -/
structure EditModal where
  isOpen : Bool
  task : Option Task
  title : String
  notes : String
deriving DecidableEq, Repr

/-- The `deleteModal` state. -/
structure DeleteModal where
  isOpen : Bool
  task : Option Task
deriving DecidableEq, Repr

/-- The state held by the `useState` hooks of `App`; `current` is a `Date`. -/
structure State where
  current : Option Int
  selectedDate : String
  tasks : List Task
  newTitle : String
  newNotes : String
  error : String
  editModal : EditModal
  deleteModal : DeleteModal
deriving DecidableEq, Repr

/-! ## The task index (lines 50-62) -/

/-- A JavaScript `Map` from day keys to arrays of tasks: its entries in insertion order. -/
abbrev TaskMap := List (String × List Task)

/-- `map.has(key)`. -/
def TaskMap.has : TaskMap → String → Bool
  | [], _ => false
  | (k, _) :: rest, key => if k = key then true else TaskMap.has rest key

/-- `map.get(key)`, `none` standing for `undefined`. -/
def TaskMap.get : TaskMap → String → Option (List Task)
  | [], _ => none
  | (k, v) :: rest, key => if k = key then some v else TaskMap.get rest key

/-- `map.set(key, value)`: replaces the value of an existing key in place, otherwise adds
the entry at the end. -/
def TaskMap.set : TaskMap → String → List Task → TaskMap
  | [], key, value => [(key, value)]
  | (k, v) :: rest, key, value =>
    if k = key then (k, value) :: rest else (k, v) :: TaskMap.set rest key value

/-- `map.get(key).push(t)`: appends `t` to the array stored under `key`.  The loop calls it
only after making sure the key is present. -/
def TaskMap.push : TaskMap → String → Task → TaskMap
  | [], _, _ => []
  | (k, v) :: rest, key, t =>
    if k = key then (k, v ++ [t]) :: rest else (k, v) :: TaskMap.push rest key t

/-- The key the index derives for a task (lines 53-55): the task's `task_date` goes through
`new Date(dateStr)`, whose time value is given by `parse` (`none` for an invalid date), and
the key is built from the local fields.  On an invalid date every getter returns `NaN`. -/
def taskKey (parse : String → Option Int) (tza : Int) (t : Task) : String :=
  match parse t.task_date with
  | none => "NaN-NaN-NaN"
  | some date => dateKey (getFullYear tza date) (getMonth tza date + 1) (getDate tza date)

/-- One iteration of the loop of `tasksByDate` (lines 53-57). -/
def indexStep (parse : String → Option Int) (tza : Int) (map : TaskMap) (t : Task) : TaskMap :=
  let key := taskKey parse tza t
  let map := if !map.has key then map.set key [] else map
  map.push key t

/-- `tasksByDate`: the map built from `tasks` (lines 50-60). -/
def tasksByDate (parse : String → Option Int) (tza : Int) (tasks : List Task) : TaskMap :=
  tasks.foldl (indexStep parse tza) []

/-- The lookup `tasksByDate.get(key) || []` (lines 62 and 220); an array is truthy, so the
fallback is taken only for `undefined`. -/
def lookup (map : TaskMap) (key : String) : List Task :=
  match map.get key with
  | some bucket => bucket
  | none => []

/-- `selectedTasks` (line 62). -/
def selectedTasks (parse : String → Option Int) (tza : Int) (s : State) : List Task :=
  lookup (tasksByDate parse tza s.tasks) s.selectedDate

/-! ## `Date.parse` on the date-only form -/

/-- Value of a decimal digit character. -/
def digitValue (c : Char) : Option Int :=
  if c.isDigit then some ((c.toNat : Int) - 48) else none

/-- Value of a run of decimal digits. -/
def digitsValue (cs : List Char) : Option Int :=
  cs.foldl (fun acc c => do
    let a ← acc
    let v ← digitValue c
    pure (10 * a + v)) (some 0)

/-- The date-only form `YYYY-MM-DD` of the ECMAScript date-time string format: such a string
is read as 00:00 UTC of that day.  `none` when the string is not of this form or names no
calendar day. -/
def parseDateOnly (s : String) : Option Int :=
  match s.data with
  | [y1, y2, y3, y4, c1, m1, m2, c2, d1, d2] =>
    if c1 = '-' ∧ c2 = '-' then
      match digitsValue [y1, y2, y3, y4], digitsValue [m1, m2], digitsValue [d1, d2] with
      | some y, some m, some d =>
        if 1 ≤ m ∧ m ≤ 12 ∧ 1 ≤ d ∧ d ≤ monthLength y (m - 1) then
          some (ES.MakeDate (ES.MakeDay y (m - 1) d) 0)
        else none
      | _, _, _ => none
    else none
  | _ => none

/-- The `Date` made by `new Date(dateStr)`: the date-only form is read as UTC; every other
string is left to `other`, which stands for the rest of `Date.parse` (the remaining
ECMAScript forms and whatever else the engine accepts); the time value is clipped. -/
def dateParse (other : String → Option Int) (s : String) : Option Int :=
  match parseDateOnly s with
  | some t => ES.TimeClip t
  | none => (other s).bind ES.TimeClip

/-! ## The store and asynchronous handlers -/

/-- A thrown value, as the handlers read it: its `message`. -/
structure JSError where
  message : String
deriving DecidableEq, Repr

/-- `e.message || "Error"`: the empty string is falsy. -/
def messageOr (e : JSError) (fallback : String) : String :=
  if e.message = "" then fallback else e.message

/-- The patch object of an `updateTask` call: `{ is_done }` or `{ title, notes }`. -/
inductive Patch where
  | isDone (is_done : Bool)
  | text (title : String) (notes : Option String)
deriving DecidableEq, Repr

/-- A mutating call to the store (`createTask`, `updateTask`, `deleteTask` of `./api`). -/
inductive Mutation where
  | createTask (task_date : String) (title : String) (notes : Option String)
  | updateTask (id : Nat) (patch : Patch)
  | deleteTask (id : Nat)
deriving DecidableEq, Repr

/-- A call to the store, as recorded in a trace. -/
inductive StoreCall where
  | fetchTasks (month : String)
  | mutate (m : Mutation)
deriving DecidableEq, Repr

/-- The store, seen from one handler run: what each call settles to.  `./api` is not part of
the component, so every theorem below ranges over all such stores. -/
structure Api where
  fetchTasks : String → Except JSError (List Task)
  mutate : Mutation → Except JSError Unit

/-- The body of an `async` function of the component: it returns, throws, calls a state
setter and goes on, or awaits a store call and goes on with what the call settled to. -/
inductive Async (α : Type) where
  | ret : α → Async α
  | throw : JSError → Async α
  | set : (State → State) → Async α → Async α
  | fetch : String → (Except JSError (List Task) → Async α) → Async α
  | mutate : Mutation → (Except JSError Unit → Async α) → Async α

namespace Async

/-- Sequencing of two pieces of an `async` body. -/
def bind {α β : Type} : Async α → (α → Async β) → Async β
  | ret a, f => f a
  | throw e, _ => throw e
  | set g k, f => set g (bind k f)
  | fetch m k, f => fetch m (fun r => bind (k r) f)
  | mutate m k, f => mutate m (fun r => bind (k r) f)

instance : Monad Async where
  pure := ret
  bind := bind

/-- The block `try { body } catch (e) { handler(e) }`. -/
def tryCatch {α : Type} : Async α → (JSError → Async α) → Async α
  | ret a, _ => ret a
  | throw e, h => h e
  | set g k, h => set g (tryCatch k h)
  | fetch m k, h => fetch m (fun r => tryCatch (k r) h)
  | mutate m k, h => mutate m (fun r => tryCatch (k r) h)

/-- A state setter call such as `setError("")`. -/
def modify (g : State → State) : Async Unit := set g (ret ())

/-- The expression `await fetchTasks(month)`: its value, or the rejection thrown. -/
def awaitFetch (month : String) : Async (List Task) :=
  fetch month fun r =>
    match r with
    | .ok data => ret data
    | .error e => throw e

/-- The expression `await` on a mutating store call, its value dropped. -/
def awaitMutate (m : Mutation) : Async Unit :=
  mutate m fun r =>
    match r with
    | .ok _ => ret ()
    | .error e => throw e

/-- What a handler run leaves behind: how it ended (returned, or an exception left it), the
state after its setter calls, and the store calls it issued, in order. -/
structure Outcome (α : Type) where
  result : Except JSError α
  state : State
  calls : List StoreCall

/-- Runs an `async` body to its end from state `s`, each store call settling as `api` says. -/
def run {α : Type} (api : Api) : Async α → State → List StoreCall → Outcome α
  | ret a, s, log => ⟨.ok a, s, log⟩
  | throw e, s, log => ⟨.error e, s, log⟩
  | set g k, s, log => run api k (g s) log
  | fetch m k, s, log => run api (k (api.fetchTasks m)) s (log ++ [StoreCall.fetchTasks m])
  | mutate m k, s, log => run api (k (api.mutate m)) s (log ++ [StoreCall.mutate m])

/-- Runs the synchronous stretch of an `async` body from state `s`: up to the next `await`,
or to the end.  Gives what is left of the body and the state reached. -/
def advance {α : Type} : Async α → State → Async α × State
  | set g k, s => advance k (g s)
  | p, s => (p, s)

/-- Resumes a body suspended on `await fetchTasks(..)` with what the request settled to. -/
def resumeFetch {α : Type} : Async α → Except JSError (List Task) → Async α
  | fetch _ k, r => k r
  | p, _ => p

/-- Resumes a body suspended on a mutating call with what the call settled to. -/
def resumeMutate {α : Type} : Async α → Except JSError Unit → Async α
  | mutate _ k, r => k r
  | p, _ => p

end Async

open Async in
/-- The effect run when `month` changes (lines 37-48). -/
def monthEffect (month : String) : Async Unit :=
  tryCatch (do
      modify fun s => { s with error := "" }
      let data ← awaitFetch month
      modify fun s => { s with tasks := data })
    (fun e => modify fun s => { s with error := messageOr e "Error" })

/-- The set of characters `String.prototype.trim` strips: ECMAScript white space and
line terminators. -/
def isTrimChar (c : Char) : Bool :=
  let n := c.toNat
  n = 0x9 || n = 0xA || n = 0xB || n = 0xC || n = 0xD || n = 0x20 || n = 0xA0
    || n = 0x1680 || (0x2000 ≤ n && n ≤ 0x200A) || n = 0x2028 || n = 0x2029
    || n = 0x202F || n = 0x205F || n = 0x3000 || n = 0xFEFF

/-- `String.prototype.trim`. -/
def trim (s : String) : String :=
  String.mk ((s.data.dropWhile isTrimChar).reverse.dropWhile isTrimChar).reverse

/-- `str || null`: the string, or `null` when it is empty. -/
def orNull (s : String) : Option String :=
  if s = "" then none else some s

/-- The `TypeError` thrown on reading `.id` of `null`. -/
def nullTaskError : JSError :=
  ⟨"Cannot read properties of null (reading 'id')"⟩

/-- `closeEditModal` (lines 129-131). -/
def closeEditModal (s : State) : State :=
  { s with editModal := { isOpen := false, task := none, title := "", notes := "" } }

/-- `closeDeleteModal` (lines 153-155). -/
def closeDeleteModal (s : State) : State :=
  { s with deleteModal := { isOpen := false, task := none } }

open Async in
/-- `onAddTask` (lines 96-112), in the render whose state is `r`. -/
def onAddTask (tza : Int) (r : State) : Async Unit :=
  if trim r.newTitle = "" then pure ()
  else
    tryCatch (do
        modify fun s => { s with error := "" }
        awaitMutate (Mutation.createTask r.selectedDate (trim r.newTitle)
          (orNull (trim r.newNotes)))
        modify fun s => { s with newTitle := "" }
        modify fun s => { s with newNotes := "" }
        let data ← awaitFetch (monthKey tza r.current)
        modify fun s => { s with tasks := data })
      (fun e => modify fun s => { s with error := messageOr e "Error" })

open Async in
/-- `onToggleDone(t)` (lines 114-123), in the render whose state is `r`. -/
def onToggleDone (tza : Int) (r : State) (t : Task) : Async Unit :=
  tryCatch (do
      modify fun s => { s with error := "" }
      awaitMutate (Mutation.updateTask t.id (Patch.isDone (!t.is_done)))
      let data ← awaitFetch (monthKey tza r.current)
      modify fun s => { s with tasks := data })
    (fun e => modify fun s => { s with error := messageOr e "Error" })

open Async in
/-- `handleEditSave` (lines 133-147), in the render whose state is `r`.  Reading
`editModal.task.id` throws inside the `try` block when the modal holds no task. -/
def handleEditSave (tza : Int) (r : State) : Async Unit :=
  if trim r.editModal.title = "" then pure ()
  else
    tryCatch (do
        modify fun s => { s with error := "" }
        let task ← (match r.editModal.task with
          | some task => pure task
          | none => Async.throw nullTaskError)
        awaitMutate (Mutation.updateTask task.id
          (Patch.text (trim r.editModal.title) (orNull (trim r.editModal.notes))))
        let data ← awaitFetch (monthKey tza r.current)
        modify fun s => { s with tasks := data }
        modify closeEditModal)
      (fun e => modify fun s => { s with error := messageOr e "Error" })

open Async in
/-- `handleDeleteConfirm` (lines 157-167), in the render whose state is `r`. -/
def handleDeleteConfirm (tza : Int) (r : State) : Async Unit :=
  tryCatch (do
      modify fun s => { s with error := "" }
      let task ← (match r.deleteModal.task with
        | some task => pure task
        | none => Async.throw nullTaskError)
      awaitMutate (Mutation.deleteTask task.id)
      let data ← awaitFetch (monthKey tza r.current)
      modify fun s => { s with tasks := data }
      modify closeDeleteModal)
    (fun e => modify fun s => { s with error := messageOr e "Error" })

/-- A handler called in state `s`: it reads the state of the current render and its setter
calls act on that same state. -/
def handle (api : Api) (handler : State → Async Unit) (s : State) : Async.Outcome Unit :=
  Async.run api (handler s) s []

/-! ## Month navigation (lines 169-175) -/

/-- `prevMonth`: `setCurrent(new Date(year, monthIndex - 1, 1))`, with `year` and
`monthIndex` read from `current` on render; they are `NaN`, and the new `Date` invalid, when
`current` is an Invalid Date. -/
def prevMonth (tza : Int) (s : State) : State :=
  { s with current :=
      match s.current with
      | none => none
      | some t => newDate tza (getFullYear tza t) (getMonth tza t - 1) 1 }

/-- `nextMonth`: `setCurrent(new Date(year, monthIndex + 1, 1))`, read like `prevMonth`. -/
def nextMonth (tza : Int) (s : State) : State :=
  { s with current :=
      match s.current with
      | none => none
      | some t => newDate tza (getFullYear tza t) (getMonth tza t + 1) 1 }

/-- The displayed month of a state: `(year, monthIndex)` as read on render (lines 64-65);
`none` when `current` is an Invalid Date and both are `NaN`. -/
def displayedMonth (tza : Int) (s : State) : Option (Int × Int) :=
  s.current.map fun t => (getFullYear tza t, getMonth tza t)

/-! ## What the claims about the handlers are stated with

These definitions do not come from the component: they name the outcomes of the store and
the moments of an asynchronous run that the claims speak of. -/

/-- What the store does to a mutating handler: the mutation fails, or it succeeds and the
refresh fails, or both succeed and the refresh returns a list. -/
inductive StoreOutcome where
  | mutationFailed (e : JSError)
  | refreshFailed (e : JSError)
  | succeeded (data : List Task)

/-- The outcome of the store `api` for the mutation `m` followed by a refresh of `month`. -/
def storeOutcome (api : Api) (m : Mutation) (month : String) : StoreOutcome :=
  match api.mutate m with
  | .error e => StoreOutcome.mutationFailed e
  | .ok _ =>
    match api.fetchTasks month with
    | .error e => StoreOutcome.refreshFailed e
    | .ok data => StoreOutcome.succeeded data

/-- The error policy of the mutating handlers, for a run `o` started in state `s` under the
store outcome `out`: no exception leaves the handler; after a failure `tasks` is as before and
`error` is the failure message, or "Error" when that is empty; after a success `tasks` is the
list the refresh returned and `error` is empty. -/
def meetsErrorPolicy (s : State) (o : Async.Outcome Unit) (out : StoreOutcome) : Prop :=
  o.result = Except.ok () ∧
  match out with
  | StoreOutcome.mutationFailed e =>
    o.state.tasks = s.tasks ∧ o.state.error = (if e.message = "" then "Error" else e.message)
  | StoreOutcome.refreshFailed e =>
    o.state.tasks = s.tasks ∧ o.state.error = (if e.message = "" then "Error" else e.message)
  | StoreOutcome.succeeded data =>
    o.state.tasks = data ∧ o.state.error = ""

/-- A body whose first `await` is a fetch: started in state `s0`, it is suspended on the
fetch; the request settles to `res` when the state has become `s`.  The state after the
stretch that runs then. -/
def settleFetch (p : Async Unit) (s0 : State) (res : Except JSError (List Task))
    (s : State) : State :=
  (Async.advance (Async.resumeFetch (Async.advance p s0).1 res) s).2

/-- A body that awaits a mutation and then a fetch: started in state `s0`, its mutation
succeeds at once, and it is suspended on the refresh; the refresh settles to `res` when
the state has become `s`.  The state after the stretch that runs then. -/
def settleRefresh (p : Async Unit) (s0 : State) (res : Except JSError (List Task))
    (s : State) : State :=
  let atMutation := Async.advance p s0
  let atRefresh := Async.advance (Async.resumeMutate atMutation.1 (Except.ok ())) atMutation.2
  (Async.advance (Async.resumeFetch atRefresh.1 res) s).2

/-- A sample task dated `task_date`. -/
def sampleTask (id : Nat) (task_date : String) : Task :=
  { id := id, task_date := task_date, title := "call the bank", notes := none,
    is_done := false }

/-- A sample state: the displayed month is that of `current`, the day 5 March 2024 is
selected, the forms hold `newTitle` and no notes, no modal is open. -/
def sampleState (current : Option Int) (tasks : List Task) (newTitle : String) : State :=
  { current := current, selectedDate := "2024-03-05", tasks := tasks, newTitle := newTitle,
    newNotes := "", error := "",
    editModal := { isOpen := false, task := none, title := "", notes := "" },
    deleteModal := { isOpen := false, task := none } }

/-- A sample store in which every call succeeds and every fetch returns `data`. -/
def sampleApi (data : List Task) : Api :=
  { fetchTasks := fun _ => Except.ok data, mutate := fun _ => Except.ok () }

/-! ## Auxiliary definitions for the proofs -/

/-- The number a list of decimal digit characters denotes, most significant digit first. -/
def decimalValue : List Char → Nat
  | [] => 0
  | c :: cs => (c.toNat - 48) * 10 ^ cs.length + decimalValue cs



/-! ## Facts about the calendar arithmetic -/

namespace ES

theorem DayFromYear_succ (y : Int) : DayFromYear (y + 1) = DayFromYear y + DaysInYear y := by
  unfold DayFromYear DaysInYear
  split_ifs <;> omega

theorem DayFromYear_mono {y z : Int} (h : y ≤ z) : DayFromYear y ≤ DayFromYear z := by
  unfold DayFromYear
  omega

theorem DayFromYear_cycle (a b c e k : Int) :
    DayFromYear (400 * a + 100 * b + 4 * c + e + k) =
      146097 * a + 36500 * b + 1460 * c + 365 * (e + k - 1970)
        + (25 * b + c + (e + k - 1969) / 4) - (b + (4 * c + e + k - 1901) / 100)
        + ((100 * b + 4 * c + e + k - 1601) / 400) := by
  unfold DayFromYear
  have h4 : (400 * a + 100 * b + 4 * c + e + k - 1969) / 4
      = 100 * a + 25 * b + c + (e + k - 1969) / 4 := by omega
  have h100 : (400 * a + 100 * b + 4 * c + e + k - 1901) / 100
      = 4 * a + b + (4 * c + e + k - 1901) / 100 := by omega
  have h400 : (400 * a + 100 * b + 4 * c + e + k - 1601) / 400
      = a + (100 * b + 4 * c + e + k - 1601) / 400 := by omega
  rw [h4, h100, h400]; ring

/-- The closed form `YearFromDay` meets the ECMAScript definition of `YearFromTime`: the day
lies in the year it returns. -/
theorem YearFromDay_spec (d : Int) :
    DayFromYear (YearFromDay d) ≤ d ∧ d < DayFromYear (YearFromDay d + 1) := by
  unfold YearFromDay
  simp only []
  generalize ha : (d + 719162) / 146097 = a
  generalize hr : (d + 719162) % 146097 = r
  generalize hb : r / 36524 = b
  generalize hr2 : r % 36524 = r2
  generalize hc : r2 / 1461 = c
  generalize hr3 : r2 % 1461 = r3
  generalize he : r3 / 365 = e
  have hb0 : 0 ≤ b ∧ b ≤ 4 := by omega
  have he0 : 0 ≤ e ∧ e ≤ 4 := by omega
  have hc0 : 0 ≤ c ∧ c ≤ 24 := by omega
  have hd : d = 146097 * a + 36524 * b + 1461 * c + r3 - 719162 := by omega
  have hr30 : 365 * e ≤ r3 ∧ r3 < 365 * e + 365 := by omega
  have hr31 : r3 < 1461 := by omega
  have hr21 : 1461 * c + r3 < 36524 := by omega
  have hr1 : 36524 * b + 1461 * c + r3 < 146097 := by omega
  clear ha hr hb hr2 hc hr3 he
  subst hd
  split_ifs with h
  · have e1 := DayFromYear_cycle a b c e 0
    have e2 := DayFromYear_cycle a b c e 1
    simp only [add_zero] at e1
    have e3 : 400 * a + 100 * b + 4 * c + e + 1 - 1 = 400 * a + 100 * b + 4 * c + e := by ring
    rw [e3, e1, e2]
    omega
  · have e1 := DayFromYear_cycle a b c e 1
    have e2 := DayFromYear_cycle a b c e 2
    have e3 : 400 * a + 100 * b + 4 * c + e + 1 + 1 = 400 * a + 100 * b + 4 * c + e + 2 := by
      ring
    rw [e3, e1, e2]
    omega

/-- A day that lies in year `y` has `YearFromDay` equal to `y`. -/
theorem YearFromDay_eq {d y : Int} (h1 : DayFromYear y ≤ d) (h2 : d < DayFromYear (y + 1)) :
    YearFromDay d = y := by
  obtain ⟨s1, s2⟩ := YearFromDay_spec d
  rcases lt_trichotomy (YearFromDay d) y with h | h | h
  · have := DayFromYear_mono (show YearFromDay d + 1 ≤ y by omega)
    omega
  · exact h
  · have := DayFromYear_mono (show y + 1 ≤ YearFromDay d by omega)
    omega

theorem DaysInYear_eq (y : Int) : DaysInYear y = 365 + leapOfYear y := by
  unfold leapOfYear DaysInYear
  split_ifs <;> omega

theorem leapOfYear_range (y : Int) : leapOfYear y = 0 ∨ leapOfYear y = 1 := by
  unfold leapOfYear
  split_ifs <;> simp

theorem Day_mul (d : Int) : Day (d * msPerDay) = d := by
  unfold Day msPerDay
  omega

end ES

theorem leapOfYear_eq (y : Int) : ES.leapOfYear y = if isLeapYear y then 1 else 0 := by
  unfold ES.leapOfYear ES.DaysInYear isLeapYear
  by_cases h4 : y % 4 = 0 <;> by_cases h100 : y % 100 = 0 <;> by_cases h400 : y % 400 = 0 <;>
    simp [h4, h100, h400]

theorem monthStart_values (l : Int) :
    ES.monthStart 0 l = 0 ∧ ES.monthStart 1 l = 31 ∧ ES.monthStart 2 l = 59 + l
    ∧ ES.monthStart 3 l = 90 + l ∧ ES.monthStart 4 l = 120 + l ∧ ES.monthStart 5 l = 151 + l
    ∧ ES.monthStart 6 l = 181 + l ∧ ES.monthStart 7 l = 212 + l ∧ ES.monthStart 8 l = 243 + l
    ∧ ES.monthStart 9 l = 273 + l ∧ ES.monthStart 10 l = 304 + l
    ∧ ES.monthStart 11 l = 334 + l :=
  ⟨rfl, rfl, rfl, rfl, rfl, rfl, rfl, rfl, rfl, rfl, rfl, rfl⟩

theorem monthLength_values (y : Int) :
    monthLength y 0 = 31 ∧ monthLength y 1 = 28 + ES.leapOfYear y ∧ monthLength y 2 = 31
    ∧ monthLength y 3 = 30 ∧ monthLength y 4 = 31 ∧ monthLength y 5 = 30
    ∧ monthLength y 6 = 31 ∧ monthLength y 7 = 31 ∧ monthLength y 8 = 30
    ∧ monthLength y 9 = 31 ∧ monthLength y 10 = 30 ∧ monthLength y 11 = 31 := by
  refine ⟨rfl, ?_, rfl, rfl, rfl, rfl, rfl, rfl, rfl, rfl, rfl, rfl⟩
  rw [leapOfYear_eq]
  unfold monthLength
  cases isLeapYear y <;> simp

theorem monthLength_range (y mi : Int) : 28 ≤ monthLength y mi ∧ monthLength y mi ≤ 31 := by
  unfold monthLength
  split_ifs <;> omega

theorem month_cases {mi : Int} (h0 : 0 ≤ mi) (h1 : mi ≤ 11) :
    mi = 0 ∨ mi = 1 ∨ mi = 2 ∨ mi = 3 ∨ mi = 4 ∨ mi = 5 ∨ mi = 6 ∨ mi = 7 ∨ mi = 8
      ∨ mi = 9 ∨ mi = 10 ∨ mi = 11 := by omega

theorem MakeDay_of_month (y mi d : Int) (h0 : 0 ≤ mi) (h1 : mi ≤ 11) :
    ES.MakeDay y mi d = ES.DayFromYear y + ES.monthStart mi (ES.leapOfYear y) + d - 1 := by
  have hq : mi / 12 = 0 := by omega
  have hr : mi % 12 = mi := by omega
  unfold ES.MakeDay
  simp only [hq, hr, add_zero]

theorem dateOfDayWithinYear_values (k l : Int) :
    ES.dateOfDayWithinYear k 0 l = k + 1 ∧ ES.dateOfDayWithinYear k 1 l = k - 30
    ∧ ES.dateOfDayWithinYear k 2 l = k - 58 - l ∧ ES.dateOfDayWithinYear k 3 l = k - 89 - l
    ∧ ES.dateOfDayWithinYear k 4 l = k - 119 - l ∧ ES.dateOfDayWithinYear k 5 l = k - 150 - l
    ∧ ES.dateOfDayWithinYear k 6 l = k - 180 - l ∧ ES.dateOfDayWithinYear k 7 l = k - 211 - l
    ∧ ES.dateOfDayWithinYear k 8 l = k - 242 - l ∧ ES.dateOfDayWithinYear k 9 l = k - 272 - l
    ∧ ES.dateOfDayWithinYear k 10 l = k - 303 - l
    ∧ ES.dateOfDayWithinYear k 11 l = k - 333 - l :=
  ⟨rfl, rfl, rfl, rfl, rfl, rfl, rfl, rfl, rfl, rfl, rfl, rfl⟩

/-- The month table read at a day of month `mi`: a day `k` of the year that lies between the
start of month `mi` and the start of the next one is in month `mi`, on day `k - start + 1`. -/
theorem month_table (mi l k : Int) (h0 : 0 ≤ mi) (h1 : mi ≤ 11) (hl : l = 0 ∨ l = 1)
    (hlo : ES.monthStart mi l ≤ k)
    (hhi : k < if mi = 11 then 365 + l else ES.monthStart (mi + 1) l) :
    ES.monthOfDayWithinYear k l = mi
    ∧ ES.dateOfDayWithinYear k mi l = k - ES.monthStart mi l + 1 := by
  obtain ⟨s0, s1, s2, s3, s4, s5, s6, s7, s8, s9, s10, s11⟩ := monthStart_values l
  obtain ⟨d0, d1, d2, d3, d4, d5, d6, d7, d8, d9, d10, d11⟩ := dateOfDayWithinYear_values k l
  unfold ES.monthOfDayWithinYear
  rcases month_cases h0 h1 with h | h | h | h | h | h | h | h | h | h | h | h <;>
    subst h <;>
    norm_num only [s0, s1, s2, s3, s4, s5, s6, s7, s8, s9, s10, s11,
      d0, d1, d2, d3, d4, d5, d6, d7, d8, d9, d10, d11, if_true, if_false] at hlo hhi ⊢ <;>
    clear s0 s1 s2 s3 s4 s5 s6 s7 s8 s9 s10 s11 d0 d1 d2 d3 d4 d5 d6 d7 d8 d9 d10 d11 <;>
    refine ⟨?_, by omega⟩ <;>
    repeat (first | rw [if_pos (by omega)] | rw [if_neg (by omega)])

theorem monthLength_eq (y mi : Int) (h0 : 0 ≤ mi) (h1 : mi ≤ 11) :
    ES.monthStart mi (ES.leapOfYear y) + monthLength y mi
      = if mi = 11 then 365 + ES.leapOfYear y else ES.monthStart (mi + 1) (ES.leapOfYear y) := by
  obtain ⟨s0, s1, s2, s3, s4, s5, s6, s7, s8, s9, s10, s11⟩ :=
    monthStart_values (ES.leapOfYear y)
  obtain ⟨l0, l1, l2, l3, l4, l5, l6, l7, l8, l9, l10, l11⟩ := monthLength_values y
  rcases month_cases h0 h1 with h | h | h | h | h | h | h | h | h | h | h | h <;>
    subst h <;>
    norm_num only [s0, s1, s2, s3, s4, s5, s6, s7, s8, s9, s10, s11,
      l0, l1, l2, l3, l4, l5, l6, l7, l8, l9, l10, l11, if_true, if_false] <;>
    ring

theorem monthStart_nonneg (mi l : Int) (hl : l = 0 ∨ l = 1) : 0 ≤ ES.monthStart mi l := by
  unfold ES.monthStart
  repeat (first | omega | split)

/-- The fields read back from the day number of a calendar day are that day. -/
theorem fields_MakeDay (y mi d : Int) (h : validDate y mi d) :
    ES.YearFromDay (ES.MakeDay y mi d) = y
    ∧ ES.monthOfDayWithinYear (ES.MakeDay y mi d - ES.DayFromYear y) (ES.leapOfYear y) = mi
    ∧ ES.dateOfDayWithinYear (ES.MakeDay y mi d - ES.DayFromYear y) mi (ES.leapOfYear y) = d := by
  obtain ⟨h0, h1, h2, h3⟩ := h
  have hl := ES.leapOfYear_range y
  have hs := ES.DayFromYear_succ y
  rw [ES.DaysInYear_eq] at hs
  rw [MakeDay_of_month y mi d h0 h1]
  have hlen := monthLength_eq y mi h0 h1
  have hnn := monthStart_nonneg mi (ES.leapOfYear y) hl
  have e : ES.DayFromYear y + ES.monthStart mi (ES.leapOfYear y) + d - 1 - ES.DayFromYear y
      = ES.monthStart mi (ES.leapOfYear y) + d - 1 := by ring
  rw [e]
  have hnext : (if mi = 11 then 365 + ES.leapOfYear y
      else ES.monthStart (mi + 1) (ES.leapOfYear y)) ≤ 365 + ES.leapOfYear y := by
    split
    · exact le_refl _
    · obtain ⟨s0, s1, s2, s3, s4, s5, s6, s7, s8, s9, s10, s11⟩ :=
        monthStart_values (ES.leapOfYear y)
      rcases month_cases h0 h1 with h | h | h | h | h | h | h | h | h | h | h | h <;>
        subst h <;>
        norm_num only [s0, s1, s2, s3, s4, s5, s6, s7, s8, s9, s10, s11] <;> omega
  have tab := month_table mi (ES.leapOfYear y) (ES.monthStart mi (ES.leapOfYear y) + d - 1)
    h0 h1 hl (by omega) (by rw [← hlen]; omega)
  generalize (if mi = 11 then 365 + ES.leapOfYear y
      else ES.monthStart (mi + 1) (ES.leapOfYear y)) = nxt at hlen hnext
  generalize ES.monthStart mi (ES.leapOfYear y) = S at *
  generalize monthLength y mi = L at *
  refine ⟨?_, tab.1, ?_⟩
  · apply ES.YearFromDay_eq
    · generalize ES.DayFromYear y = A
      omega
    · generalize ES.DayFromYear (y + 1) = B at hs ⊢
      generalize ES.DayFromYear y = A at hs ⊢
      generalize ES.leapOfYear y = l at *
      omega
  · rw [tab.2]; ring

theorem leapOfYear_cases (y : Int) :
    (ES.leapOfYear y = 1 ∧ y % 4 = 0 ∧ (y % 100 ≠ 0 ∨ y % 400 = 0))
    ∨ (ES.leapOfYear y = 0 ∧ (y % 4 ≠ 0 ∨ (y % 100 = 0 ∧ y % 400 ≠ 0))) := by
  unfold ES.leapOfYear ES.DaysInYear
  split_ifs <;> omega

theorem weekdayOffset_values :
    weekdayOffset 0 = 0 ∧ weekdayOffset 1 = 3 ∧ weekdayOffset 2 = 2 ∧ weekdayOffset 3 = 5
    ∧ weekdayOffset 4 = 0 ∧ weekdayOffset 5 = 3 ∧ weekdayOffset 6 = 5 ∧ weekdayOffset 7 = 1
    ∧ weekdayOffset 8 = 4 ∧ weekdayOffset 9 = 6 ∧ weekdayOffset 10 = 2
    ∧ weekdayOffset 11 = 4 :=
  ⟨rfl, rfl, rfl, rfl, rfl, rfl, rfl, rfl, rfl, rfl, rfl, rfl⟩

theorem DayFromYear_eq (y : Int) :
    ES.DayFromYear y
      = 365 * (y - 1970) + ((y - 1) / 4 - (y - 1) / 100 + (y - 1) / 400) - 477 := by
  unfold ES.DayFromYear
  have h4 : (y - 1969) / 4 = (y - 1) / 4 - 492 := by omega
  have h100 : (y - 1901) / 100 = (y - 1) / 100 - 19 := by omega
  have h400 : (y - 1601) / 400 = (y - 1) / 400 - 4 := by omega
  rw [h4, h100, h400]; ring

theorem leap_step (y : Int) :
    y / 4 - y / 100 + y / 400
      = (y - 1) / 4 - (y - 1) / 100 + (y - 1) / 400 + ES.leapOfYear y := by
  have h4 : (y % 4 = 0 ∧ y / 4 = (y - 1) / 4 + 1) ∨ (y % 4 ≠ 0 ∧ y / 4 = (y - 1) / 4) := by
    omega
  have h100 : (y % 100 = 0 ∧ y / 100 = (y - 1) / 100 + 1)
      ∨ (y % 100 ≠ 0 ∧ y / 100 = (y - 1) / 100) := by omega
  have h400 : (y % 400 = 0 ∧ y / 400 = (y - 1) / 400 + 1)
      ∨ (y % 400 ≠ 0 ∧ y / 400 = (y - 1) / 400) := by omega
  have hl := leapOfYear_cases y
  have d1 : y % 100 = 0 → y % 4 = 0 := by omega
  have d2 : y % 400 = 0 → y % 100 = 0 := by omega
  generalize ES.leapOfYear y = l at hl ⊢
  generalize y / 4 = a at *
  generalize y / 100 = b at *
  generalize y / 400 = c at *
  generalize (y - 1) / 4 = a1 at *
  generalize (y - 1) / 100 = b1 at *
  generalize (y - 1) / 400 = c1 at *
  generalize y % 4 = r4 at *
  generalize y % 100 = r100 at *
  generalize y % 400 = r400 at *
  omega

/-- The weekday ECMAScript derives from the day number, turned to Monday = 0, is the weekday
of the calendar day. -/
theorem weekday_MakeDay (y mi d : Int) (h0 : 0 ≤ mi) (h1 : mi ≤ 11) :
    ((ES.MakeDay y mi d + 4) % 7 + 6) % 7 = weekdayMon y mi d := by
  rw [MakeDay_of_month y mi d h0 h1, DayFromYear_eq]
  obtain ⟨s0, s1, s2, s3, s4, s5, s6, s7, s8, s9, s10, s11⟩ :=
    monthStart_values (ES.leapOfYear y)
  obtain ⟨w0, w1, w2, w3, w4, w5, w6, w7, w8, w9, w10, w11⟩ := weekdayOffset_values
  have hl := ES.leapOfYear_range y
  have hs := leap_step y
  unfold weekdayMon
  rcases month_cases h0 h1 with h | h | h | h | h | h | h | h | h | h | h | h <;>
    subst h <;>
    norm_num only [s0, s1, s2, s3, s4, s5, s6, s7, s8, s9, s10, s11,
      w0, w1, w2, w3, w4, w5, w6, w7, w8, w9, w10, w11, if_true, if_false] <;>
    clear s0 s1 s2 s3 s4 s5 s6 s7 s8 s9 s10 s11 <;>
    generalize ES.leapOfYear y = l at hl hs ⊢ <;>
    generalize (y - 1) / 4 = a1 at hs ⊢ <;>
    generalize (y - 1) / 100 = b1 at hs ⊢ <;>
    generalize (y - 1) / 400 = c1 at hs ⊢ <;>
    generalize y / 4 = a at hs ⊢ <;>
    generalize y / 100 = b at hs ⊢ <;>
    generalize y / 400 = c at hs ⊢ <;>
    omega

/-! ## The `Date` calls of the grid -/

theorem Day_dateValue (tza year monthIndex day : Int) :
    ES.Day (ES.LocalTime tza (dateValue tza year monthIndex day))
      = ES.MakeDay (ES.MakeFullYear year) monthIndex day := by
  unfold dateValue ES.LocalTime ES.UTC ES.MakeDate
  simp only [add_zero, sub_add_cancel]
  exact ES.Day_mul _

/-- A time value whose local day is the calendar day (y, mi, d) reads back as that day. -/
theorem fields_of_Day (tza t y mi d : Int) (hv : validDate y mi d)
    (ht : ES.Day (ES.LocalTime tza t) = ES.MakeDay y mi d) :
    getFullYear tza t = y ∧ getMonth tza t = mi ∧ getDate tza t = d := by
  obtain ⟨f1, f2, f3⟩ := fields_MakeDay y mi d hv
  have hy : getFullYear tza t = y := by
    unfold getFullYear ES.YearFromTime
    rw [ht, f1]
  have hm : getMonth tza t = mi := by
    unfold getMonth ES.MonthFromTime ES.DayWithinYear ES.InLeapYear ES.YearFromTime
    rw [ht, f1, f2]
  refine ⟨hy, hm, ?_⟩
  unfold getMonth at hm
  unfold getDate ES.DateFromTime
  rw [hm]
  unfold ES.DayWithinYear ES.InLeapYear ES.YearFromTime
  rw [ht, f1, f3]

theorem MakeDay_day (y m d : Int) : ES.MakeDay y m d = ES.MakeDay y m 1 + d - 1 := by
  unfold ES.MakeDay
  simp only []
  ring

theorem MakeDay_monthAfter (y mi d : Int) (h0 : 0 ≤ mi) (h1 : mi ≤ 11) :
    ES.MakeDay y (mi + 1) d = ES.MakeDay (monthAfter y mi).1 (monthAfter y mi).2 d := by
  unfold monthAfter
  split
  · next h =>
    subst h
    unfold ES.MakeDay
    norm_num
  · next h =>
    rw [MakeDay_of_month y (mi + 1) d (by omega) (by omega)]

theorem MakeDay_monthBefore (y mi d : Int) (h0 : 0 ≤ mi) (h1 : mi ≤ 11) :
    ES.MakeDay y (mi - 1) d = ES.MakeDay (monthBefore y mi).1 (monthBefore y mi).2 d := by
  unfold monthBefore
  split
  · next h =>
    subst h
    unfold ES.MakeDay
    norm_num
    ring_nf
  · next h =>
    rfl

theorem monthAfter_range (y mi : Int) (h0 : 0 ≤ mi) (h1 : mi ≤ 11) :
    0 ≤ (monthAfter y mi).2 ∧ (monthAfter y mi).2 ≤ 11 := by
  unfold monthAfter
  split
  · simp
  · simp
    omega

theorem monthBefore_range (y mi : Int) (h0 : 0 ≤ mi) (h1 : mi ≤ 11) :
    0 ≤ (monthBefore y mi).2 ∧ (monthBefore y mi).2 ≤ 11 := by
  unfold monthBefore
  split
  · simp
  · simp
    omega

theorem monthAfter_monthBefore (y mi : Int) (h0 : 0 ≤ mi) (h1 : mi ≤ 11) :
    monthAfter (monthBefore y mi).1 (monthBefore y mi).2 = (y, mi) := by
  unfold monthBefore monthAfter
  by_cases h : mi = 0
  · subst h; simp
  · simp only [h, if_false]
    have : ¬ (mi - 1 = 11) := by omega
    simp [this]

theorem monthBefore_monthAfter (y mi : Int) (h0 : 0 ≤ mi) (h1 : mi ≤ 11) :
    monthBefore (monthAfter y mi).1 (monthAfter y mi).2 = (y, mi) := by
  unfold monthBefore monthAfter
  by_cases h : mi = 11
  · subst h; simp
  · simp only [h, if_false]
    have : ¬ (mi + 1 = 0) := by omega
    simp [this]

/-- Day 1 of the next month comes `monthLength` days after day 1 of the month. -/
theorem MakeDay_month_end (y mi : Int) (h0 : 0 ≤ mi) (h1 : mi ≤ 11) :
    ES.MakeDay (monthAfter y mi).1 (monthAfter y mi).2 1
      = ES.MakeDay y mi 1 + monthLength y mi := by
  have hlen := monthLength_eq y mi h0 h1
  rw [MakeDay_of_month y mi 1 h0 h1]
  unfold monthAfter
  by_cases h : mi = 11
  · subst h
    simp only [if_true] at hlen ⊢
    rw [MakeDay_of_month (y + 1) 0 1 (by omega) (by omega), ES.DayFromYear_succ,
      ES.DaysInYear_eq]
    have s0 := (monthStart_values (ES.leapOfYear (y + 1))).1
    rw [s0]
    omega
  · simp only [h, if_false] at hlen ⊢
    rw [MakeDay_of_month y (mi + 1) 1 (by omega) (by omega)]
    omega

theorem getDay_firstDay (tza year mi : Int) (h0 : 0 ≤ mi) (h1 : mi ≤ 11) :
    (getDay tza (dateValue tza year mi 1) + 6) % 7 = weekdayMon (ES.MakeFullYear year) mi 1 := by
  unfold getDay ES.WeekDay
  rw [Day_dateValue]
  exact weekday_MakeDay _ mi 1 h0 h1

theorem Day_lastDay (tza year mi : Int) (h0 : 0 ≤ mi) (h1 : mi ≤ 11) :
    ES.Day (ES.LocalTime tza (dateValue tza year (mi + 1) 0))
      = ES.MakeDay (ES.MakeFullYear year) mi (monthLength (ES.MakeFullYear year) mi) := by
  rw [Day_dateValue, MakeDay_monthAfter _ mi 0 h0 h1, MakeDay_day _ _ 0,
    MakeDay_month_end _ mi h0 h1, MakeDay_day _ mi (monthLength _ mi)]
  ring

theorem getDate_lastDay (tza year mi : Int) (h0 : 0 ≤ mi) (h1 : mi ≤ 11) :
    getDate tza (dateValue tza year (mi + 1) 0) = monthLength (ES.MakeFullYear year) mi := by
  have hr := monthLength_range (ES.MakeFullYear year) mi
  have hv : validDate (ES.MakeFullYear year) mi (monthLength (ES.MakeFullYear year) mi) :=
    ⟨h0, h1, by omega, le_refl _⟩
  exact (fields_of_Day tza _ _ mi _ hv (Day_lastDay tza year mi h0 h1)).2.2

theorem getDate_lastDayBefore (tza year mi : Int) (h0 : 0 ≤ mi) (h1 : mi ≤ 11) :
    getDate tza (dateValue tza year mi 0)
      = monthLength (monthBefore (ES.MakeFullYear year) mi).1
          (monthBefore (ES.MakeFullYear year) mi).2 := by
  obtain ⟨b0, b1⟩ := monthBefore_range (ES.MakeFullYear year) mi h0 h1
  have hr := monthLength_range (monthBefore (ES.MakeFullYear year) mi).1
    (monthBefore (ES.MakeFullYear year) mi).2
  have hv : validDate (monthBefore (ES.MakeFullYear year) mi).1
      (monthBefore (ES.MakeFullYear year) mi).2
      (monthLength (monthBefore (ES.MakeFullYear year) mi).1
        (monthBefore (ES.MakeFullYear year) mi).2) :=
    ⟨b0, b1, by omega, le_refl _⟩
  refine (fields_of_Day tza _ _ _ _ hv ?_).2.2
  have hend := MakeDay_month_end (monthBefore (ES.MakeFullYear year) mi).1
    (monthBefore (ES.MakeFullYear year) mi).2 b0 b1
  rw [monthAfter_monthBefore _ mi h0 h1] at hend
  dsimp only at hend
  rw [Day_dateValue, MakeDay_day _ mi 0, hend, MakeDay_day _ _ (monthLength _ _)]
  ring

/-! ## Valid and invalid dates -/

theorem TimeClip_eq_some {t u : Int} (h : ES.TimeClip t = some u) :
    u = t ∧ -8640000000000000 ≤ t ∧ t ≤ 8640000000000000 := by
  unfold ES.TimeClip at h
  split at h
  · next hr => exact ⟨(Option.some.inj h).symm, hr.1, hr.2⟩
  · exact Option.noConfusion h

theorem TimeClip_of_range {t : Int} (h0 : -8640000000000000 ≤ t) (h1 : t ≤ 8640000000000000) :
    ES.TimeClip t = some t := by
  unfold ES.TimeClip
  rw [if_pos ⟨h0, h1⟩]

theorem dateValue_eq (tza year monthIndex day : Int) :
    dateValue tza year monthIndex day
      = ES.MakeDay (ES.MakeFullYear year) monthIndex day * 86400000 - tza := by
  unfold dateValue ES.UTC ES.MakeDate ES.msPerDay
  simp only [add_zero]

theorem startWeekday_eq (tza year mi : Int) (h0 : 0 ≤ mi) (h1 : mi ≤ 11) :
    startWeekday tza year mi
      = (newDate tza year mi 1).map fun _ => weekdayMon (ES.MakeFullYear year) mi 1 := by
  unfold startWeekday
  cases hd : newDate tza year mi 1 with
  | none => rfl
  | some t =>
    obtain ⟨rfl, _, _⟩ := TimeClip_eq_some hd
    simp only [Option.map_some']
    rw [getDay_firstDay tza year mi h0 h1]

theorem daysInMonth_eq (tza year mi : Int) (h0 : 0 ≤ mi) (h1 : mi ≤ 11) :
    daysInMonth tza year mi
      = (newDate tza year (mi + 1) 0).map fun _ => monthLength (ES.MakeFullYear year) mi := by
  unfold daysInMonth
  cases hd : newDate tza year (mi + 1) 0 with
  | none => rfl
  | some t =>
    obtain ⟨rfl, _, _⟩ := TimeClip_eq_some hd
    simp only [Option.map_some']
    rw [getDate_lastDay tza year mi h0 h1]

theorem daysInPrevMonth_eq (tza year mi : Int) (h0 : 0 ≤ mi) (h1 : mi ≤ 11) :
    daysInPrevMonth tza year mi
      = (newDate tza year mi 0).map fun _ =>
          monthLength (monthBefore (ES.MakeFullYear year) mi).1
            (monthBefore (ES.MakeFullYear year) mi).2 := by
  unfold daysInPrevMonth
  cases hd : newDate tza year mi 0 with
  | none => rfl
  | some t =>
    obtain ⟨rfl, _, _⟩ := TimeClip_eq_some hd
    simp only [Option.map_some']
    rw [getDate_lastDayBefore tza year mi h0 h1]

/-- Day 1 of a month lies between the last day of the month before and the last day of the
month, so it is a valid `Date` when those two are. -/
theorem newDate_firstDay_valid (tza year mi : Int) (h0 : 0 ≤ mi) (h1 : mi ≤ 11)
    (hprev : newDate tza year mi 0 ≠ none) (hlast : newDate tza year (mi + 1) 0 ≠ none) :
    newDate tza year mi 1 = some (dateValue tza year mi 1) := by
  have hr := monthLength_range (ES.MakeFullYear year) mi
  have e0 := dateValue_eq tza year mi 0
  have e1 := dateValue_eq tza year mi 1
  have e2 := dateValue_eq tza year (mi + 1) 0
  rw [MakeDay_day _ mi 0] at e0
  rw [MakeDay_monthAfter _ mi 0 h0 h1, MakeDay_day _ _ 0, MakeDay_month_end _ mi h0 h1] at e2
  unfold newDate at hprev hlast ⊢
  cases hp : ES.TimeClip (dateValue tza year mi 0) with
  | none => exact absurd hp hprev
  | some a =>
    cases hl : ES.TimeClip (dateValue tza year (mi + 1) 0) with
    | none => exact absurd hl hlast
    | some b =>
      obtain ⟨_, p0, _⟩ := TimeClip_eq_some hp
      obtain ⟨_, _, l1⟩ := TimeClip_eq_some hl
      apply TimeClip_of_range <;> omega

theorem weekdayMon_range (y mi d : Int) : 0 ≤ weekdayMon y mi d ∧ weekdayMon y mi d ≤ 6 := by
  unfold weekdayMon
  simp only []
  omega

/-! ## The shape of the grid -/

theorem countDown_map {β : Type} (n : Int) (f : Int → β) :
    (countDown n).map f = (List.range n.toNat).map fun (k : Nat) => f ((n.toNat : Int) - 1 - k) := by
  unfold countDown
  have hrev := List.reverse_range' 0 n.toNat
  rw [← List.range_eq_range'] at hrev
  rw [← List.map_reverse, hrev, List.map_map, List.map_map]
  apply List.map_congr_left
  intro k hk
  have hk' : k < n.toNat := by simpa using hk
  simp only [Function.comp]
  congr 1
  omega

theorem length_gridOf (y mi : Int) (w N : Nat) (P : Int) (h : w + N ≤ 42) :
    (gridOf y mi w N P).length = 42 := by
  unfold gridOf
  simp only [List.length_append, List.length_map, List.length_range]
  omega

/-- The array built by the three loops, in closed form, when the `Date`s it reads are valid.
-/
theorem cells_eq_gridOf (tza year mi : Int) (h0 : 0 ≤ mi) (h1 : mi ≤ 11)
    (hprev : newDate tza year mi 0 ≠ none) (hlast : newDate tza year (mi + 1) 0 ≠ none) :
    cells tza year mi
      = gridOf year mi (weekdayMon (ES.MakeFullYear year) mi 1).toNat
          (monthLength (ES.MakeFullYear year) mi).toNat
          (monthLength (monthBefore (ES.MakeFullYear year) mi).1
            (monthBefore (ES.MakeFullYear year) mi).2) := by
  have hw := weekdayMon_range (ES.MakeFullYear year) mi 1
  have hN := monthLength_range (ES.MakeFullYear year) mi
  have hfirst := newDate_firstDay_valid tza year mi h0 h1 hprev hlast
  obtain ⟨tp, htp⟩ := Option.ne_none_iff_exists'.mp hprev
  obtain ⟨tl, htl⟩ := Option.ne_none_iff_exists'.mp hlast
  have hsw : startWeekday tza year mi = some (weekdayMon (ES.MakeFullYear year) mi 1) := by
    rw [startWeekday_eq tza year mi h0 h1, hfirst]
    rfl
  have hdm : daysInMonth tza year mi = some (monthLength (ES.MakeFullYear year) mi) := by
    rw [daysInMonth_eq tza year mi h0 h1, htl]
    rfl
  have hdp : daysInPrevMonth tza year mi
      = some (monthLength (monthBefore (ES.MakeFullYear year) mi).1
          (monthBefore (ES.MakeFullYear year) mi).2) := by
    rw [daysInPrevMonth_eq tza year mi h0 h1, htp]
    rfl
  have hprevc : prevCells tza year mi
      = (List.range (weekdayMon (ES.MakeFullYear year) mi 1).toNat).map fun (k : Nat) =>
          { day := some (monthLength (monthBefore (ES.MakeFullYear year) mi).1
                (monthBefore (ES.MakeFullYear year) mi).2
              - (weekdayMon (ES.MakeFullYear year) mi 1).toNat + 1 + k),
            month := MonthTag.prev,
            year := (monthBefore year mi).1, monthIdx := (monthBefore year mi).2 : Cell } := by
    unfold prevCells
    rw [hsw, hdp]
    dsimp only
    by_cases hpos : weekdayMon (ES.MakeFullYear year) mi 1 > 0
    · rw [if_pos hpos, countDown_map]
      apply List.map_congr_left
      intro k _
      unfold monthBefore
      by_cases hm : mi = 0
      · simp only [hm, if_true, Option.map_some', Cell.mk.injEq, and_true, true_and]
        congr 1
        omega
      · simp only [hm, if_false, Option.map_some', Cell.mk.injEq, and_true, true_and]
        congr 1
        omega
    · rw [if_neg hpos]
      have : (weekdayMon (ES.MakeFullYear year) mi 1).toNat = 0 := by omega
      rw [this]
      rfl
  have hcur : currentCells tza year mi
      = (List.range (monthLength (ES.MakeFullYear year) mi).toNat).map fun (k : Nat) =>
          { day := some ((k : Int) + 1), month := MonthTag.current, year := year,
            monthIdx := mi : Cell } := by
    unfold currentCells countUp
    rw [hdm]
    dsimp only
    rw [List.map_map]
    rfl
  have hrem : (remaining tza year mi).toNat
      = 42 - (weekdayMon (ES.MakeFullYear year) mi 1).toNat
          - (monthLength (ES.MakeFullYear year) mi).toNat := by
    unfold remaining
    rw [hprevc, hcur]
    simp only [List.length_append, List.length_map, List.length_range]
    omega
  have hnext : nextCells tza year mi
      = (List.range (42 - (weekdayMon (ES.MakeFullYear year) mi 1).toNat
          - (monthLength (ES.MakeFullYear year) mi).toNat)).map fun (k : Nat) =>
          { day := some ((k : Int) + 1), month := MonthTag.next,
            year := (monthAfter year mi).1, monthIdx := (monthAfter year mi).2 : Cell } := by
    unfold nextCells countUp
    rw [hrem, List.map_map]
    apply List.map_congr_left
    intro k _
    unfold monthAfter
    by_cases hm : mi = 11 <;> simp [hm]
  unfold cells gridOf
  rw [hprevc, hcur, hnext]

theorem MakeFullYear_of_not_two_digit (year : Int) (hy : year < 0 ∨ 99 < year) :
    ES.MakeFullYear year = year := by
  unfold ES.MakeFullYear
  rw [if_neg (by omega)]

theorem cells_eq_expectedGrid (tza year mi : Int) (hy : year < 0 ∨ 99 < year)
    (h0 : 0 ≤ mi) (h1 : mi ≤ 11)
    (hprev : newDate tza year mi 0 ≠ none) (hlast : newDate tza year (mi + 1) 0 ≠ none) :
    cells tza year mi = expectedGrid year mi := by
  rw [cells_eq_gridOf tza year mi h0 h1 hprev hlast, MakeFullYear_of_not_two_digit year hy]
  rfl

/-! ## The days the cells carry -/

theorem gridOf_getElem? (y mi : Int) (w N : Nat) (P : Int) (i : Nat) (hi : i < 42)
    (hwN : w + N ≤ 42) :
    (gridOf y mi w N P)[i]? = some (
      if i < w then
        { day := some (P - w + 1 + i), month := MonthTag.prev,
          year := (monthBefore y mi).1, monthIdx := (monthBefore y mi).2 : Cell }
      else if i < w + N then
        { day := some (((i - w : Nat) : Int) + 1), month := MonthTag.current, year := y,
          monthIdx := mi : Cell }
      else
        { day := some (((i - w - N : Nat) : Int) + 1), month := MonthTag.next,
          year := (monthAfter y mi).1, monthIdx := (monthAfter y mi).2 : Cell }) := by
  unfold gridOf
  by_cases h1 : i < w
  · rw [if_pos h1, List.append_assoc, List.getElem?_append_left (by simpa using h1),
      List.getElem?_map, List.getElem?_range h1]
    rfl
  · rw [if_neg h1, List.append_assoc, List.getElem?_append_right (by simpa using h1)]
    simp only [List.length_map, List.length_range]
    by_cases h2 : i < w + N
    · rw [if_pos h2, List.getElem?_append_left (by simp; omega), List.getElem?_map,
        List.getElem?_range (by omega)]
      rfl
    · rw [if_neg h2, List.getElem?_append_right (by simp; omega)]
      simp only [List.length_map, List.length_range]
      rw [List.getElem?_map, List.getElem?_range (by omega)]
      rfl

/-- The calendar day after a calendar day is a calendar day, one day number later. -/
theorem nextDay_spec (y mi d : Int) (hv : validDate y mi d) :
    validDate (nextDay y mi d).1 (nextDay y mi d).2.1 (nextDay y mi d).2.2
    ∧ ES.MakeDay (nextDay y mi d).1 (nextDay y mi d).2.1 (nextDay y mi d).2.2
        = ES.MakeDay y mi d + 1 := by
  obtain ⟨h0, h1, h2, h3⟩ := hv
  have hend := MakeDay_month_end y mi h0 h1
  unfold nextDay
  by_cases hd : d < monthLength y mi
  · rw [if_pos hd]
    dsimp only
    refine ⟨⟨h0, h1, by omega, by omega⟩, ?_⟩
    rw [MakeDay_day y mi (d + 1), MakeDay_day y mi d]
    ring
  · rw [if_neg hd]
    have hd' : d = monthLength y mi := by omega
    by_cases hm : mi < 11
    · rw [if_pos hm]
      dsimp only
      have hr := monthLength_range y (mi + 1)
      refine ⟨⟨by omega, by omega, by omega, by omega⟩, ?_⟩
      unfold monthAfter at hend
      rw [if_neg (by omega)] at hend
      dsimp only at hend
      rw [hend, MakeDay_day y mi d]
      omega
    · rw [if_neg hm]
      dsimp only
      have hm' : mi = 11 := by omega
      have hr := monthLength_range (y + 1) 0
      refine ⟨⟨by omega, by omega, by omega, by omega⟩, ?_⟩
      unfold monthAfter at hend
      rw [if_pos hm'] at hend
      dsimp only at hend
      rw [hend, MakeDay_day y mi d]
      omega

/-- Two calendar days with the same day number are the same day. -/
theorem MakeDay_inj (y1 m1 d1 y2 m2 d2 : Int) (hv1 : validDate y1 m1 d1)
    (hv2 : validDate y2 m2 d2) (h : ES.MakeDay y1 m1 d1 = ES.MakeDay y2 m2 d2) :
    y1 = y2 ∧ m1 = m2 ∧ d1 = d2 := by
  obtain ⟨a1, a2, a3⟩ := fields_MakeDay y1 m1 d1 hv1
  obtain ⟨b1, b2, b3⟩ := fields_MakeDay y2 m2 d2 hv2
  have hy : y1 = y2 := by rw [← a1, ← b1, h]
  subst hy
  have hm : m1 = m2 := by rw [← a2, ← b2, h]
  subst hm
  refine ⟨rfl, rfl, ?_⟩
  rw [← a3, ← b3, h]

/-- Cell `i` of the expected grid carries a calendar day, `i` days after the day of cell 0,
which lies `w` days before day 1 of the month. -/
theorem expectedGrid_cell (y mi : Int) (h0 : 0 ≤ mi) (h1 : mi ≤ 11) (i : Nat) (hi : i < 42) :
    ∃ c d, (expectedGrid y mi)[i]? = some c
      ∧ c.day = some d
      ∧ validDate c.year c.monthIdx d
      ∧ ES.MakeDay c.year c.monthIdx d
          = ES.MakeDay y mi 1 - weekdayMon y mi 1 + i := by
  have hw := weekdayMon_range y mi 1
  have hN := monthLength_range y mi
  have hP := monthLength_range (monthBefore y mi).1 (monthBefore y mi).2
  have hQ := monthLength_range (monthAfter y mi).1 (monthAfter y mi).2
  obtain ⟨b0, b1⟩ := monthBefore_range y mi h0 h1
  obtain ⟨a0, a1⟩ := monthAfter_range y mi h0 h1
  have hendB := MakeDay_month_end (monthBefore y mi).1 (monthBefore y mi).2 b0 b1
  rw [monthAfter_monthBefore y mi h0 h1] at hendB
  dsimp only at hendB
  have hendA := MakeDay_month_end y mi h0 h1
  unfold expectedGrid
  rw [gridOf_getElem? y mi _ _ _ i hi (by omega)]
  by_cases c1 : i < (weekdayMon y mi 1).toNat
  · rw [if_pos c1]
    refine ⟨_, _, rfl, rfl, ?_⟩
    dsimp only
    refine ⟨⟨b0, b1, by omega, by omega⟩, ?_⟩
    rw [MakeDay_day]
    omega
  · rw [if_neg c1]
    by_cases c2 : i < (weekdayMon y mi 1).toNat + (monthLength y mi).toNat
    · rw [if_pos c2]
      refine ⟨_, _, rfl, rfl, ?_⟩
      dsimp only
      refine ⟨⟨h0, h1, by omega, by omega⟩, ?_⟩
      rw [MakeDay_day]
      omega
    · rw [if_neg c2]
      refine ⟨_, _, rfl, rfl, ?_⟩
      dsimp only
      refine ⟨⟨a0, a1, by omega, by omega⟩, ?_⟩
      rw [MakeDay_day, hendA]
      omega

/-! ## Decimal numerals and the day key -/

theorem digitChar_value (d : Nat) (h : d < 10) : (Nat.digitChar d).toNat - 48 = d := by
  interval_cases d <;> rfl

theorem decimalValue_cons (c : Char) (cs : List Char) :
    decimalValue (c :: cs) = (c.toNat - 48) * 10 ^ cs.length + decimalValue cs := rfl

theorem toDigitsCore_value (fuel : Nat) : ∀ (n : Nat) (ds : List Char), n < fuel →
    decimalValue (Nat.toDigitsCore 10 fuel n ds) = n * 10 ^ ds.length + decimalValue ds := by
  induction fuel with
  | zero => intro n ds h; omega
  | succ fuel ih =>
    intro n ds h
    have hd := digitChar_value (n % 10) (Nat.mod_lt _ (by decide))
    unfold Nat.toDigitsCore
    by_cases h0 : n / 10 = 0
    · simp only [h0, if_true]
      rw [decimalValue_cons, hd]
      have : n % 10 = n := by omega
      rw [this]
    · simp only [h0, if_false]
      rw [ih (n / 10) _ (by omega), decimalValue_cons, hd, List.length_cons, pow_succ]
      have hn : n = 10 * (n / 10) + n % 10 := (Nat.div_add_mod n 10).symm
      generalize n / 10 = q at hn ⊢
      generalize n % 10 = r at hn ⊢
      subst hn
      ring

theorem decimalValue_repr (n : Nat) : decimalValue (Nat.repr n).data = n := by
  unfold Nat.repr Nat.toDigits
  have h := toDigitsCore_value (n + 1) n [] (by omega)
  simpa [List.asString, decimalValue] using h

theorem numberToString_natCast (n : Nat) : numberToString (n : Int) = Nat.repr n := rfl

/-- The numeral of a non-negative integer determines it. -/
theorem numberToString_inj (a b : Int) (ha : 0 ≤ a) (hb : 0 ≤ b)
    (h : numberToString a = numberToString b) : a = b := by
  obtain ⟨n, rfl⟩ := Int.eq_ofNat_of_zero_le ha
  obtain ⟨m, rfl⟩ := Int.eq_ofNat_of_zero_le hb
  rw [numberToString_natCast, numberToString_natCast] at h
  have := congrArg (fun s => decimalValue s.data) h
  simp only [decimalValue_repr] at this
  rw [this]

/-- A number from 0 to 31 is padded to two characters, and read back from them. -/
theorem pad2_small (n : Int) (h0 : 0 ≤ n) (h1 : n ≤ 31) :
    (pad2 n).length = 2 ∧ digitsValue (pad2 n).data = some n := by
  interval_cases n <;> exact ⟨rfl, rfl⟩

theorem dateKey_data (y m d : Int) :
    (dateKey y m d).data
      = (numberToString y).data ++ ('-' :: (pad2 m).data ++ '-' :: (pad2 d).data) := by
  unfold dateKey
  simp [String.data_append]

theorem dateKey_inj (y1 m1 d1 y2 m2 d2 : Int)
    (hy1 : 0 ≤ y1) (hm1 : 1 ≤ m1 ∧ m1 ≤ 12) (hd1 : 1 ≤ d1 ∧ d1 ≤ 31)
    (hy2 : 0 ≤ y2) (hm2 : 1 ≤ m2 ∧ m2 ≤ 12) (hd2 : 1 ≤ d2 ∧ d2 ≤ 31)
    (h : dateKey y1 m1 d1 = dateKey y2 m2 d2) : y1 = y2 ∧ m1 = m2 ∧ d1 = d2 := by
  obtain ⟨lm1, vm1⟩ := pad2_small m1 (by omega) (by omega)
  obtain ⟨lm2, vm2⟩ := pad2_small m2 (by omega) (by omega)
  obtain ⟨ld1, vd1⟩ := pad2_small d1 (by omega) (by omega)
  obtain ⟨ld2, vd2⟩ := pad2_small d2 (by omega) (by omega)
  have hdata := congrArg String.data h
  rw [dateKey_data, dateKey_data] at hdata
  have hlen : ('-' :: (pad2 m1).data ++ '-' :: (pad2 d1).data).length
      = ('-' :: (pad2 m2).data ++ '-' :: (pad2 d2).data).length := by
    simp only [List.length_cons, List.length_append, String.length] at *
    omega
  obtain ⟨hy, hrest⟩ := List.append_inj' hdata hlen
  have hyy : numberToString y1 = numberToString y2 := String.ext hy
  have e1 := numberToString_inj y1 y2 hy1 hy2 hyy
  have hrest' : (pad2 m1).data ++ '-' :: (pad2 d1).data
      = (pad2 m2).data ++ '-' :: (pad2 d2).data := by
    simpa using hrest
  obtain ⟨hm, hd⟩ := List.append_inj hrest' (by
    simp only [String.length] at lm1 lm2
    omega)
  have hd' : (pad2 d1).data = (pad2 d2).data := by simpa using hd
  rw [hm] at vm1
  rw [hd'] at vd1
  have e2 : m1 = m2 := by
    have := vm1.symm.trans vm2
    exact Option.some.inj this
  have e3 : d1 = d2 := by
    have := vd1.symm.trans vd2
    exact Option.some.inj this
  exact ⟨e1, e2, e3⟩

/-! ## The task index -/

theorem TaskMap.has_eq (m : TaskMap) (k : String) : m.has k = (m.get k).isSome := by
  induction m with
  | nil => rfl
  | cons e rest ih =>
    obtain ⟨k0, v0⟩ := e
    unfold TaskMap.has TaskMap.get
    by_cases h : k0 = k
    · simp [h]
    · simp [h, ih]

theorem TaskMap.get_set (m : TaskMap) (k k' : String) (v : List Task) :
    (m.set k v).get k' = if k = k' then some v else m.get k' := by
  induction m with
  | nil =>
    unfold TaskMap.set TaskMap.get
    by_cases h : k = k'
    · simp [h]
    · simp [h, TaskMap.get]
  | cons e rest ih =>
    obtain ⟨k0, v0⟩ := e
    unfold TaskMap.set
    by_cases h0 : k0 = k
    · subst h0
      by_cases h : k0 = k'
      · simp [TaskMap.get, h]
      · simp [TaskMap.get, h]
    · by_cases h : k0 = k'
      · subst h
        have : ¬ k = k0 := fun e => h0 e.symm
        simp [TaskMap.get, h0, this]
      · simp [TaskMap.get, h0, h, ih]

theorem TaskMap.get_push (m : TaskMap) (k k' : String) (t : Task) :
    (m.push k t).get k'
      = if k = k' then (m.get k').map (fun bucket => bucket ++ [t]) else m.get k' := by
  induction m with
  | nil =>
    unfold TaskMap.push TaskMap.get
    by_cases h : k = k' <;> simp [h]
  | cons e rest ih =>
    obtain ⟨k0, v0⟩ := e
    unfold TaskMap.push
    by_cases h0 : k0 = k
    · subst h0
      by_cases h : k0 = k'
      · simp [TaskMap.get, h]
      · simp [TaskMap.get, h]
    · by_cases h : k0 = k'
      · subst h
        have : ¬ k = k0 := fun e => h0 e.symm
        simp [TaskMap.get, h0, this]
      · simp [TaskMap.get, h0, h, ih]

/-- One loop iteration appends the task to the bucket of its key and leaves the other
buckets as they were. -/
theorem lookup_indexStep (parse : String → Option Int) (tza : Int) (map : TaskMap) (t : Task)
    (k : String) :
    lookup (indexStep parse tza map t) k
      = if taskKey parse tza t = k then lookup map k ++ [t] else lookup map k := by
  unfold indexStep lookup
  simp only [TaskMap.has_eq, TaskMap.get_push]
  by_cases hk : taskKey parse tza t = k
  · subst hk
    cases hget : map.get (taskKey parse tza t) with
    | none => simp [hget, TaskMap.get_set]
    | some bucket => simp [hget]
  · cases hget : map.get (taskKey parse tza t) with
    | none => simp [hget, hk, TaskMap.get_set]
    | some bucket => simp [hget, hk]

theorem lookup_foldl (parse : String → Option Int) (tza : Int) (ts : List Task) :
    ∀ (map : TaskMap) (k : String),
      lookup (ts.foldl (indexStep parse tza) map) k
        = lookup map k ++ ts.filter (fun t => decide (taskKey parse tza t = k)) := by
  induction ts with
  | nil => intro map k; simp
  | cons t rest ih =>
    intro map k
    rw [List.foldl_cons, ih, lookup_indexStep]
    by_cases hk : taskKey parse tza t = k
    · simp [hk]
    · simp [hk]

/-! ## Month navigation -/

theorem displayedMonth_newDate (tza y mi : Int) (h0 : 0 ≤ mi) (h1 : mi ≤ 11)
    (t : Int) (ht : ES.Day (ES.LocalTime tza t) = ES.MakeDay y mi 1) :
    getFullYear tza t = y ∧ getMonth tza t = mi := by
  have hr := monthLength_range y mi
  have hv : validDate y mi 1 := ⟨h0, h1, le_refl _, by omega⟩
  obtain ⟨a, b, _⟩ := fields_of_Day tza t y mi 1 hv ht
  exact ⟨a, b⟩

/-- The state fields other than `current` play no part in the displayed month. -/
theorem displayedMonth_of_current (tza : Int) (s : State) (y mi : Int)
    (hs : displayedMonth tza s = some (y, mi)) :
    ∃ t, s.current = some t ∧ getFullYear tza t = y ∧ getMonth tza t = mi := by
  unfold displayedMonth at hs
  cases hc : s.current with
  | none => rw [hc] at hs; exact Option.noConfusion hs
  | some t =>
    rw [hc] at hs
    have h := Option.some.inj hs
    exact ⟨t, rfl, congrArg Prod.fst h, congrArg Prod.snd h⟩

theorem nextMonth_current (tza : Int) (s : State) (y mi : Int)
    (hs : displayedMonth tza s = some (y, mi)) :
    (nextMonth tza s).current = newDate tza y (mi + 1) 1 := by
  obtain ⟨t, hc, e1, e2⟩ := displayedMonth_of_current tza s y mi hs
  unfold nextMonth
  dsimp only
  rw [hc]
  dsimp only
  rw [e1, e2]

theorem prevMonth_current (tza : Int) (s : State) (y mi : Int)
    (hs : displayedMonth tza s = some (y, mi)) :
    (prevMonth tza s).current = newDate tza y (mi - 1) 1 := by
  obtain ⟨t, hc, e1, e2⟩ := displayedMonth_of_current tza s y mi hs
  unfold prevMonth
  dsimp only
  rw [hc]
  dsimp only
  rw [e1, e2]

/-- The month shown by a state whose `current` is the valid `Date` of day 1 of a month. -/
theorem displayedMonth_of_newDate (tza : Int) (s : State) (y mi y2 m2 : Int)
    (hc : s.current = newDate tza y mi 1) (hv : newDate tza y mi 1 ≠ none)
    (hy : y < 0 ∨ 99 < y) (h0 : 0 ≤ m2) (h1 : m2 ≤ 11)
    (hd : ES.MakeDay y mi 1 = ES.MakeDay y2 m2 1) :
    displayedMonth tza s = some (y2, m2) := by
  obtain ⟨t, ht⟩ := Option.ne_none_iff_exists'.mp hv
  obtain ⟨rfl, _, _⟩ := TimeClip_eq_some ht
  have hday : ES.Day (ES.LocalTime tza (dateValue tza y mi 1)) = ES.MakeDay y2 m2 1 := by
    rw [Day_dateValue, MakeFullYear_of_not_two_digit y hy, hd]
  obtain ⟨e1, e2⟩ := displayedMonth_newDate tza y2 m2 h0 h1 _ hday
  unfold displayedMonth
  rw [hc, ht]
  simp only [Option.map_some']
  rw [e1, e2]

theorem displayedMonth_nextMonth (tza : Int) (s : State) (y m : Int)
    (hs : displayedMonth tza s = some (y, m)) (hy : y < 0 ∨ 99 < y)
    (h0 : 0 ≤ m) (h1 : m ≤ 11) (hv : newDate tza y (m + 1) 1 ≠ none) :
    displayedMonth tza (nextMonth tza s) = some (monthAfter y m) := by
  obtain ⟨a0, a1⟩ := monthAfter_range y m h0 h1
  exact displayedMonth_of_newDate tza _ y (m + 1) _ _ (nextMonth_current tza s y m hs) hv hy
    a0 a1 (MakeDay_monthAfter y m 1 h0 h1)

theorem displayedMonth_prevMonth (tza : Int) (s : State) (y m : Int)
    (hs : displayedMonth tza s = some (y, m)) (hy : y < 0 ∨ 99 < y)
    (h0 : 0 ≤ m) (h1 : m ≤ 11) (hv : newDate tza y (m - 1) 1 ≠ none) :
    displayedMonth tza (prevMonth tza s) = some (monthBefore y m) := by
  obtain ⟨b0, b1⟩ := monthBefore_range y m h0 h1
  exact displayedMonth_of_newDate tza _ y (m - 1) _ _ (prevMonth_current tza s y m hs) hv hy
    b0 b1 (MakeDay_monthBefore y m 1 h0 h1)

/-- After a constructor call that gives an Invalid Date the displayed month is `NaN` and the
month key is "NaN-NaN". -/
theorem displayedMonth_of_invalid (tza : Int) (s : State) (h : s.current = none) :
    displayedMonth tza s = none ∧ monthKey tza s.current = "NaN-NaN" := by
  unfold displayedMonth monthKey
  rw [h]
  exact ⟨rfl, rfl⟩

/-- Two `Date`s of the same local year and month have the same month key. -/
theorem monthKey_of_displayedMonth (tza : Int) (s1 s2 : State) (p : Int × Int)
    (h1 : displayedMonth tza s1 = some p) (h2 : displayedMonth tza s2 = some p) :
    monthKey tza s1.current = monthKey tza s2.current := by
  obtain ⟨t1, c1, a1, b1⟩ := displayedMonth_of_current tza s1 p.1 p.2 h1
  obtain ⟨t2, c2, a2, b2⟩ := displayedMonth_of_current tza s2 p.1 p.2 h2
  unfold monthKey
  rw [c1, c2]
  dsimp only
  rw [a1, b1, a2, b2]

/-- The value of the `Date` constructor depends on the year and month only through the day
number. -/
theorem newDate_congr (tza y1 m1 y2 m2 : Int) (hy1 : y1 < 0 ∨ 99 < y1)
    (hy2 : y2 < 0 ∨ 99 < y2) (hd : ES.MakeDay y1 m1 1 = ES.MakeDay y2 m2 1) :
    newDate tza y1 m1 1 = newDate tza y2 m2 1 := by
  unfold newDate
  rw [dateValue_eq, dateValue_eq, MakeFullYear_of_not_two_digit y1 hy1,
    MakeFullYear_of_not_two_digit y2 hy2, hd]

/-! ## The years whose months are all valid `Date`s -/

theorem DayFromYear_ends :
    ES.DayFromYear (-271820) = -99999744 ∧ ES.DayFromYear 275760 = 99999744 := by
  unfold ES.DayFromYear
  constructor <;> norm_num

theorem MakeFullYear_range (y : Int) (hy0 : -271820 ≤ y) (hy1 : y ≤ 275759) :
    -271820 ≤ ES.MakeFullYear y ∧ ES.MakeFullYear y ≤ 275759 := by
  unfold ES.MakeFullYear
  split <;> omega

/-- Day 1 of each month of the years -271820..275759 lies more than a month inside the range
of day numbers a `Date` can hold. -/
theorem MakeDay_first_range (y mi : Int) (hy0 : -271820 ≤ y) (hy1 : y ≤ 275759)
    (h0 : 0 ≤ mi) (h1 : mi ≤ 11) :
    -99999744 ≤ ES.MakeDay y mi 1 ∧ ES.MakeDay y mi 1 ≤ 99999714 := by
  have hlo := ES.DayFromYear_mono hy0
  have hhi := ES.DayFromYear_mono (show y + 1 ≤ 275760 by omega)
  rw [DayFromYear_ends.1] at hlo
  rw [DayFromYear_ends.2, ES.DayFromYear_succ] at hhi
  have hdiy := ES.DaysInYear_eq y
  have hl := leapOfYear_cases y
  have hms : 0 ≤ ES.monthStart mi (ES.leapOfYear y)
      ∧ ES.monthStart mi (ES.leapOfYear y) ≤ 334 + ES.leapOfYear y := by
    have hv := monthStart_values (ES.leapOfYear y)
    generalize ES.leapOfYear y = l at hv hl
    obtain ⟨v0, v1, v2, v3, v4, v5, v6, v7, v8, v9, v10, v11⟩ := hv
    have hc : mi = 0 ∨ mi = 1 ∨ mi = 2 ∨ mi = 3 ∨ mi = 4 ∨ mi = 5 ∨ mi = 6 ∨ mi = 7
        ∨ mi = 8 ∨ mi = 9 ∨ mi = 10 ∨ mi = 11 := by omega
    rcases hc with h | h | h | h | h | h | h | h | h | h | h | h <;> subst h <;> omega
  rw [MakeDay_of_month y mi 1 h0 h1]
  generalize ES.monthStart mi (ES.leapOfYear y) = ms at hms
  generalize ES.DayFromYear y = dfy at hlo hhi
  generalize ES.DaysInYear y = diy at hhi hdiy
  generalize ES.leapOfYear y = l at hl hms hdiy
  omega

theorem newDate_of_day_range (tza year mi d : Int) (ht0 : -86400000 ≤ tza)
    (ht1 : tza ≤ 86400000)
    (hd0 : -99999900 ≤ ES.MakeDay (ES.MakeFullYear year) mi d)
    (hd1 : ES.MakeDay (ES.MakeFullYear year) mi d ≤ 99999900) :
    newDate tza year mi d ≠ none := by
  have e := dateValue_eq tza year mi d
  unfold newDate
  rw [TimeClip_of_range (by omega) (by omega)]
  exact Option.some_ne_none _

/-- In the years -271820..275759 the `Date`s the grid and the navigation construct around a
month are all valid, in every zone within a day of UTC. -/
theorem newDate_valid_of_year_range (tza y mi : Int) (hy0 : -271820 ≤ y) (hy1 : y ≤ 275759)
    (h0 : 0 ≤ mi) (h1 : mi ≤ 11) (ht0 : -86400000 ≤ tza) (ht1 : tza ≤ 86400000) :
    newDate tza y mi 0 ≠ none ∧ newDate tza y (mi + 1) 0 ≠ none
      ∧ newDate tza y (mi - 1) 1 ≠ none ∧ newDate tza y mi 1 ≠ none
      ∧ newDate tza y (mi + 1) 1 ≠ none := by
  obtain ⟨f0, f1⟩ := MakeFullYear_range y hy0 hy1
  obtain ⟨r0, r1⟩ := MakeDay_first_range (ES.MakeFullYear y) mi f0 f1 h0 h1
  have hN := monthLength_range (ES.MakeFullYear y) mi
  have hP := monthLength_range (monthBefore (ES.MakeFullYear y) mi).1
    (monthBefore (ES.MakeFullYear y) mi).2
  obtain ⟨b0, b1⟩ := monthBefore_range (ES.MakeFullYear y) mi h0 h1
  have hendA := MakeDay_month_end (ES.MakeFullYear y) mi h0 h1
  have hendB := MakeDay_month_end (monthBefore (ES.MakeFullYear y) mi).1
    (monthBefore (ES.MakeFullYear y) mi).2 b0 b1
  rw [monthAfter_monthBefore _ mi h0 h1] at hendB
  dsimp only at hendB
  have e1 := MakeDay_day (ES.MakeFullYear y) mi 0
  have e2 := MakeDay_monthAfter (ES.MakeFullYear y) mi 0 h0 h1
  have e2b := MakeDay_day (monthAfter (ES.MakeFullYear y) mi).1
    (monthAfter (ES.MakeFullYear y) mi).2 0
  have e3 := MakeDay_monthBefore (ES.MakeFullYear y) mi 1 h0 h1
  have e4 := MakeDay_monthAfter (ES.MakeFullYear y) mi 1 h0 h1
  refine ⟨?_, ?_, ?_, ?_, ?_⟩ <;> apply newDate_of_day_range tza y _ _ ht0 ht1 <;> omega
/-! ## The claims about the grid -/

theorem startWeekday_range (tza year mi w : Int) (h : startWeekday tza year mi = some w) :
    0 ≤ w ∧ w ≤ 6 := by
  unfold startWeekday at h
  cases hd : newDate tza year mi 1 with
  | none => rw [hd] at h; exact Option.noConfusion h
  | some t =>
    rw [hd] at h
    have h2 := Option.some.inj h
    dsimp only at h2
    omega

theorem prevCells_length_le (tza year mi : Int) : (prevCells tza year mi).length ≤ 6 := by
  unfold prevCells
  dsimp only
  cases hs : startWeekday tza year mi with
  | none => simp
  | some w =>
    obtain ⟨w0, w1⟩ := startWeekday_range tza year mi w hs
    dsimp only
    by_cases hpos : w > 0
    · rw [if_pos hpos]
      simp only [countDown, List.length_map, List.length_reverse, List.length_range]
      omega
    · rw [if_neg hpos]
      simp

theorem currentCells_length_le (tza year mi : Int) (h0 : 0 ≤ mi) (h1 : mi ≤ 11) :
    (currentCells tza year mi).length ≤ 31 := by
  have hN := monthLength_range (ES.MakeFullYear year) mi
  unfold currentCells
  rw [daysInMonth_eq tza year mi h0 h1]
  cases newDate tza year (mi + 1) 0 with
  | none => simp
  | some t =>
    simp only [Option.map_some', countUp, List.length_map, List.length_range]
    omega

theorem nextCells_length (tza year mi : Int) :
    (nextCells tza year mi).length = (remaining tza year mi).toNat := by
  simp [nextCells, countUp]

/-- Claim C1: for every year and every month index 0..11 the `cells` array has exactly 42
cells, and `remaining`, the number of trailing next-month cells (42 minus the leading and
current-month cells), is never negative. -/
theorem cells_length_42 (tza year monthIndex : Int) (h0 : 0 ≤ monthIndex)
    (h1 : monthIndex ≤ 11) :
    (cells tza year monthIndex).length = 42 ∧ 0 ≤ remaining tza year monthIndex := by
  have hp := prevCells_length_le tza year monthIndex
  have hc := currentCells_length_le tza year monthIndex h0 h1
  have hn := nextCells_length tza year monthIndex
  have hr : remaining tza year monthIndex
      = 42 - (((prevCells tza year monthIndex).length
          + (currentCells tza year monthIndex).length : Nat) : Int) := by
    unfold remaining
    rw [List.length_append]
  unfold cells
  rw [List.length_append, List.length_append, hn, hr]
  generalize (prevCells tza year monthIndex).length = a at hp
  generalize (currentCells tza year monthIndex).length = b at hc
  omega

/-- Witness of `cells_length_42`: February 2024 in a zone two hours east of UTC. -/
theorem cells_length_42_witness :
    (0 : Int) ≤ 1 ∧ (1 : Int) ≤ 11 ∧ (cells 7200000 2024 1).length = 42
      ∧ 0 ≤ remaining 7200000 2024 1 :=
  ⟨by decide, by decide, cells_length_42 7200000 2024 1 (by decide) (by decide)⟩

/-- Counterexample to claim C2 as stated: December of year 99 starts on a Tuesday, so the
claim asks for one leading cell; the `Date` constructor reads year 99 as 1999, whose December
starts on a Wednesday, and the grid has two leading cells.  And with September 275760
displayed, the last day of the month is past the last valid `Date`: `daysInMonth` is `NaN`,
no cell is tagged current and all 42 cells are tagged next. -/
theorem cells_year_99_not_expected :
    weekdayMon 99 11 1 = 1
      ∧ ((cells 0 99 11).filter fun c => decide (c.month = MonthTag.prev)).length = 2
      ∧ cells 0 99 11 ≠ expectedGrid 99 11
      ∧ newDate 0 275760 8 1 ≠ none
      ∧ newDate 0 275760 9 0 = none
      ∧ ((cells 0 275760 8).filter fun c => decide (c.month = MonthTag.current)).length = 0
      ∧ ((cells 0 275760 8).filter fun c => decide (c.month = MonthTag.next)).length = 42
      ∧ cells 0 275760 8 ≠ expectedGrid 275760 8 := by
  decide

/-- Claim C2, amended: for every year `y` outside 0..99 and every month index 0..11 for which
the two `Date`s the grid reads the month lengths from (day 0 of the month and day 0 of the
month after) are valid, the grid is exactly the expected one: `w` cells tagged prev with days
`P-w+1..P` of the month before, `N` cells tagged current with days `1..N`, then `42-w-N` cells
tagged next with days from 1 of the month after, where `w` is the Monday-based weekday of
day 1, `N` the length of the month and `P` the length of the month before.  The two `Date`s
are valid for every year -271820..275759 in every zone within a day of UTC.  In such a zone,
for February 2024 the current run has 29 cells and the other cells are 13, and for December
2024 every next cell has year 2025 and month index 0. -/
theorem cells_eq_expected_outside_two_digit_years (tza : Int) :
    (∀ y mi : Int, (y < 0 ∨ 99 < y) → 0 ≤ mi → mi ≤ 11 →
        newDate tza y mi 0 ≠ none → newDate tza y (mi + 1) 0 ≠ none →
        cells tza y mi = expectedGrid y mi)
    ∧ (∀ y mi : Int, -271820 ≤ y → y ≤ 275759 → 0 ≤ mi → mi ≤ 11 →
        -86400000 ≤ tza → tza ≤ 86400000 →
        newDate tza y mi 0 ≠ none ∧ newDate tza y (mi + 1) 0 ≠ none)
    ∧ (-86400000 ≤ tza → tza ≤ 86400000 →
        ((cells tza 2024 1).filter fun c => decide (c.month = MonthTag.current)).length = 29
        ∧ ((cells tza 2024 1).filter fun c => decide (c.month ≠ MonthTag.current)).length = 13
        ∧ (∀ c ∈ cells tza 2024 11,
            c.month = MonthTag.next → c.year = 2025 ∧ c.monthIdx = 0)) := by
  refine ⟨fun y mi hy h0 h1 hp hl => cells_eq_expectedGrid tza y mi hy h0 h1 hp hl, ?_, ?_⟩
  · intro y mi hy0 hy1 h0 h1 ht0 ht1
    obtain ⟨v1, v2, _⟩ := newDate_valid_of_year_range tza y mi hy0 hy1 h0 h1 ht0 ht1
    exact ⟨v1, v2⟩
  · intro ht0 ht1
    obtain ⟨a1, a2, _⟩ := newDate_valid_of_year_range tza 2024 1 (by decide) (by decide)
      (by decide) (by decide) ht0 ht1
    obtain ⟨b1, b2, _⟩ := newDate_valid_of_year_range tza 2024 11 (by decide) (by decide)
      (by decide) (by decide) ht0 ht1
    rw [cells_eq_expectedGrid tza 2024 1 (by decide) (by decide) (by decide) a1 a2,
      cells_eq_expectedGrid tza 2024 11 (by decide) (by decide) (by decide) b1 b2]
    decide

/-- Witness of `cells_eq_expected_outside_two_digit_years`: February 2024 at UTC. -/
theorem cells_eq_expected_witness : cells 0 2024 1 = expectedGrid 2024 1 :=
  (cells_eq_expected_outside_two_digit_years 0).1 2024 1 (by decide) (by decide) (by decide)
    (by decide) (by decide)

/-- Counterexample to claim C3 as stated: with December of year 99 displayed, cell 0 carries
29 November of year 99, which is a Sunday (6), not a Monday (0).  And with September 275760
displayed, where the last day of the month is past the last valid `Date`, cell 31 carries day
32 of October 275760, which is no calendar day. -/
theorem cells_year_99_starts_on_sunday :
    (cells 0 99 11)[0]?
        = some { day := some 29, month := MonthTag.prev, year := 99, monthIdx := 10 }
      ∧ weekdayMon 99 10 29 = 6
      ∧ (cells 0 275760 8)[31]?
        = some { day := some 32, month := MonthTag.next, year := 275760, monthIdx := 9 }
      ∧ ¬ validDate 275760 9 32 := by
  refine ⟨by decide, by decide, by decide, ?_⟩
  intro h
  exact absurd h.2.2.2 (by decide)

/-- Claim C3, amended: for every year outside 0..99 and every month index 0..11 for which the
two `Date`s the grid reads the month lengths from (day 0 of the month and day 0 of the month
after) are valid, and every grid index `i` in 0..41, cell `i` carries a calendar day whose
weekday, Monday = 0 .. Sunday = 6, is `i mod 7`, and the next cell, when there is one,
carries the calendar day after it. -/
theorem cells_are_consecutive_days (tza year monthIndex : Int) (hy : year < 0 ∨ 99 < year)
    (h0 : 0 ≤ monthIndex) (h1 : monthIndex ≤ 11)
    (hprev : newDate tza year monthIndex 0 ≠ none)
    (hlast : newDate tza year (monthIndex + 1) 0 ≠ none) (i : Nat) (hi : i < 42) :
    ∃ c d, (cells tza year monthIndex)[i]? = some c
      ∧ c.day = some d
      ∧ validDate c.year c.monthIdx d
      ∧ weekdayMon c.year c.monthIdx d = (i : Int) % 7
      ∧ ∀ c', (cells tza year monthIndex)[i + 1]? = some c' →
          (c'.year, c'.monthIdx, c'.day)
            = ((nextDay c.year c.monthIdx d).1, (nextDay c.year c.monthIdx d).2.1,
                some (nextDay c.year c.monthIdx d).2.2) := by
  rw [cells_eq_expectedGrid tza year monthIndex hy h0 h1 hprev hlast]
  obtain ⟨c, d, hc, hcd, hv, hday⟩ := expectedGrid_cell year monthIndex h0 h1 i hi
  have hw := weekday_MakeDay year monthIndex 1 h0 h1
  have hwc := weekday_MakeDay c.year c.monthIdx d hv.1 hv.2.1
  refine ⟨c, d, hc, hcd, hv, ?_, ?_⟩
  · rw [← hwc, hday, ← hw]
    omega
  · intro c' hc'
    have hi' : i + 1 < 42 := by
      by_contra hcon
      have hlen : (expectedGrid year monthIndex).length = 42 := by
        have hw := weekdayMon_range year monthIndex 1
        have hN := monthLength_range year monthIndex
        exact length_gridOf _ _ _ _ _ (by omega)
      have : (expectedGrid year monthIndex)[i + 1]? = none := by
        apply List.getElem?_eq_none
        omega
      rw [this] at hc'
      exact Option.noConfusion hc'
    obtain ⟨c2, d2, hc2, hcd2, hv2, hday2⟩ :=
      expectedGrid_cell year monthIndex h0 h1 (i + 1) hi'
    rw [hc2] at hc'
    have hcc : c2 = c' := Option.some.inj hc'
    subst hcc
    obtain ⟨nv, nd⟩ := nextDay_spec c.year c.monthIdx d hv
    have heq : ES.MakeDay c2.year c2.monthIdx d2
        = ES.MakeDay (nextDay c.year c.monthIdx d).1 (nextDay c.year c.monthIdx d).2.1
            (nextDay c.year c.monthIdx d).2.2 := by
      rw [nd, hday2, hday]
      push_cast
      ring
    obtain ⟨e1, e2, e3⟩ := MakeDay_inj _ _ _ _ _ _ hv2 nv heq
    rw [hcd2, e1, e2, e3]

/-- Witness of `cells_are_consecutive_days`: cell 0 of the grid of February 2024. -/
theorem cells_are_consecutive_days_witness :
    ∃ c d, (cells 0 2024 1)[0]? = some c
      ∧ c.day = some d
      ∧ validDate c.year c.monthIdx d
      ∧ weekdayMon c.year c.monthIdx d = ((0 : Nat) : Int) % 7
      ∧ ∀ c', (cells 0 2024 1)[0 + 1]? = some c' →
          (c'.year, c'.monthIdx, c'.day)
            = ((nextDay c.year c.monthIdx d).1, (nextDay c.year c.monthIdx d).2.1,
                some (nextDay c.year c.monthIdx d).2.2) :=
  cells_are_consecutive_days 0 2024 1 (by decide) (by decide) (by decide) (by decide)
    (by decide) 0 (by decide)

/-! ## The claims about the keys and the index -/

/-- Claim C4: `dateKey` pads month and day to two digits, `dateKey(2024, 3, 5)` is
"2024-03-05", and on years from 0, months 1..12 and days 1..31 two keys are equal exactly
when year, month and day are. -/
theorem dateKey_pads_and_is_injective :
    dateKey 2024 3 5 = "2024-03-05"
    ∧ (∀ n : Int, 1 ≤ n → n ≤ 31 → (pad2 n).length = 2)
    ∧ ∀ y1 m1 d1 y2 m2 d2 : Int,
        0 ≤ y1 → 1 ≤ m1 → m1 ≤ 12 → 1 ≤ d1 → d1 ≤ 31 →
        0 ≤ y2 → 1 ≤ m2 → m2 ≤ 12 → 1 ≤ d2 → d2 ≤ 31 →
        (dateKey y1 m1 d1 = dateKey y2 m2 d2 ↔ (y1, m1, d1) = (y2, m2, d2)) := by
  refine ⟨by decide, fun n h0 h1 => (pad2_small n (by omega) h1).1, ?_⟩
  intro y1 m1 d1 y2 m2 d2 hy1 a1 b1 c1 e1 hy2 a2 b2 c2 e2
  constructor
  · intro h
    obtain ⟨r1, r2, r3⟩ :=
      dateKey_inj y1 m1 d1 y2 m2 d2 hy1 ⟨a1, b1⟩ ⟨c1, e1⟩ hy2 ⟨a2, b2⟩ ⟨c2, e2⟩ h
    rw [r1, r2, r3]
  · intro h
    have h1 := congrArg Prod.fst h
    have h2 := congrArg (fun p => p.2.1) h
    have h3 := congrArg (fun p => p.2.2) h
    dsimp only at h1 h2 h3
    rw [h1, h2, h3]

/-- Witness of `dateKey_pads_and_is_injective`: 5 March 2024 against 5 March 2025. -/
theorem dateKey_pads_and_is_injective_witness :
    (dateKey 2024 3 5 = dateKey 2025 3 5 ↔ ((2024 : Int), (3 : Int), (5 : Int)) = (2025, 3, 5)) :=
  dateKey_pads_and_is_injective.2.2 2024 3 5 2025 3 5 (by decide) (by decide) (by decide)
    (by decide) (by decide) (by decide) (by decide) (by decide) (by decide) (by decide)

theorem lookup_tasksByDate_eq (parse : String → Option Int) (tza : Int) (ts : List Task)
    (k : String) :
    lookup (tasksByDate parse tza ts) k
      = ts.filter (fun t => decide (taskKey parse tza t = k)) := by
  unfold tasksByDate
  rw [lookup_foldl]
  rfl

/-- Claim C5: for every task list and every day key, the lookup `tasksByDate.get(k) || []`
is the sub-list of the tasks whose derived key is `k`, in their order in the list; for the
empty list every lookup is the empty list. -/
theorem lookup_tasksByDate (parse : String → Option Int) (tza : Int) (ts : List Task)
    (k : String) :
    lookup (tasksByDate parse tza ts) k
        = ts.filter (fun t => decide (taskKey parse tza t = k))
    ∧ lookup (tasksByDate parse tza []) k = [] :=
  ⟨lookup_tasksByDate_eq parse tza ts k, rfl⟩

/-! ## The claim about the time zone -/

theorem parseDateOnly_sample : parseDateOnly "2024-03-05" = some 1709596800000 := by
  decide

/-- Claim C6 fails on the code: a task stored with `task_date` = `dateKey(2024, 3, 5)` is
filed under "2024-03-04" in a zone five hours west of UTC, so the lookup of its own day
finds nothing; at UTC and two hours east of it the key is the task's day. -/
theorem task_filed_under_previous_day_west_of_utc (other : String → Option Int) :
    dateKey 2024 3 5 = "2024-03-05"
    ∧ taskKey (dateParse other) (-18000000) (sampleTask 1 "2024-03-05") = "2024-03-04"
    ∧ lookup (tasksByDate (dateParse other) (-18000000) [sampleTask 1 "2024-03-05"])
        "2024-03-05" = []
    ∧ lookup (tasksByDate (dateParse other) (-18000000) [sampleTask 1 "2024-03-05"])
        "2024-03-04" = [sampleTask 1 "2024-03-05"]
    ∧ taskKey (dateParse other) 0 (sampleTask 1 "2024-03-05") = "2024-03-05"
    ∧ taskKey (dateParse other) 7200000 (sampleTask 1 "2024-03-05") = "2024-03-05" := by
  have hp : dateParse other "2024-03-05" = some 1709596800000 := by
    unfold dateParse
    rw [parseDateOnly_sample]
    exact TimeClip_of_range (by decide) (by decide)
  have hk : ∀ tza : Int, taskKey (dateParse other) tza (sampleTask 1 "2024-03-05")
      = dateKey (getFullYear tza 1709596800000) (getMonth tza 1709596800000 + 1)
          (getDate tza 1709596800000) := by
    intro tza
    unfold taskKey sampleTask
    dsimp only
    rw [hp]
  have k1 : taskKey (dateParse other) (-18000000) (sampleTask 1 "2024-03-05") = "2024-03-04" := by
    rw [hk]; decide
  have k2 : taskKey (dateParse other) 0 (sampleTask 1 "2024-03-05") = "2024-03-05" := by
    rw [hk]; decide
  have k3 : taskKey (dateParse other) 7200000 (sampleTask 1 "2024-03-05") = "2024-03-05" := by
    rw [hk]; decide
  refine ⟨by decide, k1, ?_, ?_, k2, k3⟩
  · rw [lookup_tasksByDate_eq]
    simp [k1]
  · rw [lookup_tasksByDate_eq]
    simp [k1]

/-! ## The claim about month navigation -/

/-- Counterexample to claim C10 as stated: from January of year 100, `prevMonth` shows
December of year 99, and `nextMonth` then shows January 2000, not January of year 100: the
`Date` constructor reads year 99 as 1999.  And from September 275760, the month of the last
valid `Date`, `nextMonth` gives an Invalid Date, whose month key is "NaN-NaN"; so does
`prevMonth` from May -271821, the first month whose day 1 is a valid `Date`. -/
theorem nextMonth_after_prevMonth_year_100 :
    displayedMonth 0 (sampleState (newDate 0 100 0 1) [] "") = some (100, 0)
    ∧ displayedMonth 0 (prevMonth 0 (sampleState (newDate 0 100 0 1) [] "")) = some (99, 11)
    ∧ displayedMonth 0 (nextMonth 0 (prevMonth 0 (sampleState (newDate 0 100 0 1) [] "")))
        = some (2000, 0)
    ∧ displayedMonth 0 (sampleState (newDate 0 275760 8 1) [] "") = some (275760, 8)
    ∧ displayedMonth 0 (nextMonth 0 (sampleState (newDate 0 275760 8 1) [] "")) = none
    ∧ monthKey 0 (nextMonth 0 (sampleState (newDate 0 275760 8 1) [] "")).current
        = "NaN-NaN"
    ∧ displayedMonth 0 (sampleState (newDate 0 (-271821) 4 1) [] "") = some (-271821, 4)
    ∧ displayedMonth 0 (prevMonth 0 (sampleState (newDate 0 (-271821) 4 1) [] "")) = none
    ∧ monthKey 0 (prevMonth 0 (sampleState (newDate 0 (-271821) 4 1) [] "")).current
        = "NaN-NaN" := by
  decide

theorem monthAfter_not_two_digit (y m : Int) (hy : y < 0 ∨ 99 < y)
    (hne : ¬ (y = -1 ∧ m = 11)) :
    (monthAfter y m).1 < 0 ∨ 99 < (monthAfter y m).1 := by
  unfold monthAfter
  by_cases h : m = 11
  · rw [if_pos h]; dsimp only; omega
  · rw [if_neg h]; exact hy

theorem monthBefore_not_two_digit (y m : Int) (hy : y < 0 ∨ 99 < y)
    (hne : ¬ (y = 100 ∧ m = 0)) :
    (monthBefore y m).1 < 0 ∨ 99 < (monthBefore y m).1 := by
  unfold monthBefore
  by_cases h : m = 0
  · rw [if_pos h]; dsimp only; omega
  · rw [if_neg h]; exact hy

theorem displayedMonth_prevMonth_nextMonth (tza : Int) (s : State) (y m : Int)
    (hs : displayedMonth tza s = some (y, m)) (hy : y < 0 ∨ 99 < y)
    (h0 : 0 ≤ m) (h1 : m ≤ 11) (hne : ¬ (y = -1 ∧ m = 11))
    (hv : newDate tza y m 1 ≠ none) (hvn : newDate tza y (m + 1) 1 ≠ none) :
    displayedMonth tza (prevMonth tza (nextMonth tza s)) = some (y, m) := by
  obtain ⟨a0, a1⟩ := monthAfter_range y m h0 h1
  have hya := monthAfter_not_two_digit y m hy hne
  have hn := displayedMonth_nextMonth tza s y m hs hy h0 h1 hvn
  have hd : ES.MakeDay (monthAfter y m).1 ((monthAfter y m).2 - 1) 1 = ES.MakeDay y m 1 := by
    rw [MakeDay_monthBefore _ _ 1 a0 a1, monthBefore_monthAfter y m h0 h1]
  have hcong := newDate_congr tza _ _ y m hya hy hd
  have hb := displayedMonth_of_newDate tza (prevMonth tza (nextMonth tza s))
    (monthAfter y m).1 ((monthAfter y m).2 - 1) y m
    (prevMonth_current tza (nextMonth tza s) _ _ hn) (by rw [hcong]; exact hv) hya h0 h1 hd
  exact hb

theorem displayedMonth_nextMonth_prevMonth (tza : Int) (s : State) (y m : Int)
    (hs : displayedMonth tza s = some (y, m)) (hy : y < 0 ∨ 99 < y)
    (h0 : 0 ≤ m) (h1 : m ≤ 11) (hne : ¬ (y = 100 ∧ m = 0))
    (hv : newDate tza y m 1 ≠ none) (hvp : newDate tza y (m - 1) 1 ≠ none) :
    displayedMonth tza (nextMonth tza (prevMonth tza s)) = some (y, m) := by
  obtain ⟨b0, b1⟩ := monthBefore_range y m h0 h1
  have hyb := monthBefore_not_two_digit y m hy hne
  have hp := displayedMonth_prevMonth tza s y m hs hy h0 h1 hvp
  have hd : ES.MakeDay (monthBefore y m).1 ((monthBefore y m).2 + 1) 1 = ES.MakeDay y m 1 := by
    rw [MakeDay_monthAfter _ _ 1 b0 b1, monthAfter_monthBefore y m h0 h1]
  have hcong := newDate_congr tza _ _ y m hyb hy hd
  have hb := displayedMonth_of_newDate tza (nextMonth tza (prevMonth tza s))
    (monthBefore y m).1 ((monthBefore y m).2 + 1) y m
    (nextMonth_current tza (prevMonth tza s) _ _ hp) (by rw [hcong]; exact hv) hyb h0 h1 hd
  exact hb

/-- Claim C10, amended: for every displayed month (y, m) with `y` outside 0..99 and `m` in
0..11, `nextMonth` sets the displayed month to (y, m+1), or (y+1, 0) when m = 11, when day 1
of that month is a valid `Date`, and `prevMonth` to (y, m-1), or (y-1, 11) when m = 0, when
day 1 of that month is a valid `Date`; when it is not, `current` becomes an Invalid Date and
the month key "NaN-NaN".  Both change no other state field.  When day 1 of (y, m) and day 1
of the month gone through are valid `Date`s, `prevMonth` after `nextMonth` restores the
displayed month and the month key unless (y, m) = (-1, 11), and `nextMonth` after `prevMonth`
unless (y, m) = (100, 0).  Day 1 of the month, of the month before and of the month after are
valid `Date`s for every year -271820..275759 in every zone within a day of UTC. -/
theorem month_navigation (tza : Int) (s : State) (y m : Int)
    (hs : displayedMonth tza s = some (y, m)) (hy : y < 0 ∨ 99 < y) (h0 : 0 ≤ m) (h1 : m ≤ 11) :
    (newDate tza y (m + 1) 1 ≠ none →
        displayedMonth tza (nextMonth tza s)
          = some (if m = 11 then (y + 1, 0) else (y, m + 1)))
    ∧ (newDate tza y (m - 1) 1 ≠ none →
        displayedMonth tza (prevMonth tza s)
          = some (if m = 0 then (y - 1, 11) else (y, m - 1)))
    ∧ (newDate tza y (m + 1) 1 = none →
        displayedMonth tza (nextMonth tza s) = none
        ∧ monthKey tza (nextMonth tza s).current = "NaN-NaN")
    ∧ (newDate tza y (m - 1) 1 = none →
        displayedMonth tza (prevMonth tza s) = none
        ∧ monthKey tza (prevMonth tza s).current = "NaN-NaN")
    ∧ nextMonth tza s = { s with current := (nextMonth tza s).current }
    ∧ prevMonth tza s = { s with current := (prevMonth tza s).current }
    ∧ (¬ (y = -1 ∧ m = 11) → newDate tza y m 1 ≠ none → newDate tza y (m + 1) 1 ≠ none →
        displayedMonth tza (prevMonth tza (nextMonth tza s)) = some (y, m)
        ∧ monthKey tza (prevMonth tza (nextMonth tza s)).current = monthKey tza s.current)
    ∧ (¬ (y = 100 ∧ m = 0) → newDate tza y m 1 ≠ none → newDate tza y (m - 1) 1 ≠ none →
        displayedMonth tza (nextMonth tza (prevMonth tza s)) = some (y, m)
        ∧ monthKey tza (nextMonth tza (prevMonth tza s)).current = monthKey tza s.current)
    ∧ (-271820 ≤ y → y ≤ 275759 → -86400000 ≤ tza → tza ≤ 86400000 →
        newDate tza y (m - 1) 1 ≠ none ∧ newDate tza y m 1 ≠ none
        ∧ newDate tza y (m + 1) 1 ≠ none) := by
  refine ⟨?_, ?_, ?_, ?_, rfl, rfl, ?_, ?_, ?_⟩
  · intro hv
    exact displayedMonth_nextMonth tza s y m hs hy h0 h1 hv
  · intro hv
    exact displayedMonth_prevMonth tza s y m hs hy h0 h1 hv
  · intro hv
    exact displayedMonth_of_invalid tza _ (by rw [nextMonth_current tza s y m hs, hv])
  · intro hv
    exact displayedMonth_of_invalid tza _ (by rw [prevMonth_current tza s y m hs, hv])
  · intro hne hv hvn
    have hback := displayedMonth_prevMonth_nextMonth tza s y m hs hy h0 h1 hne hv hvn
    exact ⟨hback, monthKey_of_displayedMonth tza _ _ (y, m) hback hs⟩
  · intro hne hv hvp
    have hforth := displayedMonth_nextMonth_prevMonth tza s y m hs hy h0 h1 hne hv hvp
    exact ⟨hforth, monthKey_of_displayedMonth tza _ _ (y, m) hforth hs⟩
  · intro hy0 hy1 ht0 ht1
    obtain ⟨_, _, v1, v2, v3⟩ := newDate_valid_of_year_range tza y m hy0 hy1 h0 h1 ht0 ht1
    exact ⟨v1, v2, v3⟩

/-- Witness of `month_navigation`: December 2024 in a zone two hours east of UTC. -/
theorem month_navigation_witness :
    displayedMonth 7200000 (nextMonth 7200000 (sampleState (newDate 7200000 2024 11 1) [] ""))
      = some (if (11 : Int) = 11 then ((2024 : Int) + 1, (0 : Int)) else (2024, 11 + 1)) :=
  (month_navigation 7200000 (sampleState (newDate 7200000 2024 11 1) [] "") 2024 11
    (by decide) (by decide) (by decide) (by decide)).1 (by decide)

/-! ## The claims about the handlers -/

theorem Async.bind_eq {α β : Type} (x : Async α) (f : α → Async β) :
    (x >>= f) = Async.bind x f := rfl

theorem Async.pure_eq {α : Type} (a : α) : (pure a : Async α) = Async.ret a := rfl

/-- Claim C7: when the title trims to the empty string, `onAddTask` (on `newTitle`) and
`handleEditSave` (on `editModal.title`) issue no store call and leave the state as it was,
edit modal included. -/
theorem blank_title_is_noop (api : Api) (tza : Int) (s : State) :
    (trim s.newTitle = "" →
      (handle api (onAddTask tza) s).state = s
      ∧ (handle api (onAddTask tza) s).calls = []
      ∧ (handle api (onAddTask tza) s).result = Except.ok ())
    ∧ (trim s.editModal.title = "" →
      (handle api (handleEditSave tza) s).state = s
      ∧ (handle api (handleEditSave tza) s).calls = []
      ∧ (handle api (handleEditSave tza) s).result = Except.ok ()) := by
  constructor
  · intro h
    unfold handle onAddTask
    rw [if_pos h]
    exact ⟨rfl, rfl, rfl⟩
  · intro h
    unfold handle handleEditSave
    rw [if_pos h]
    exact ⟨rfl, rfl, rfl⟩

/-- Witness of `blank_title_is_noop`: a title of blanks in the add form. -/
theorem blank_title_is_noop_witness :
    trim (sampleState (some 0) [sampleTask 1 "2024-03-05"] "  ").newTitle = ""
    ∧ (handle (sampleApi []) (onAddTask 0) (sampleState (some 0) [sampleTask 1 "2024-03-05"] "  ")).state
        = sampleState (some 0) [sampleTask 1 "2024-03-05"] "  " :=
  ⟨by decide,
    ((blank_title_is_noop (sampleApi []) 0
      (sampleState (some 0) [sampleTask 1 "2024-03-05"] "  ")).1 (by decide)).1⟩

theorem onAddTask_policy (api : Api) (tza : Int) (s : State) (h : trim s.newTitle ≠ "") :
    meetsErrorPolicy s (handle api (onAddTask tza) s)
      (storeOutcome api
        (Mutation.createTask s.selectedDate (trim s.newTitle) (orNull (trim s.newNotes)))
        (monthKey tza s.current)) := by
  unfold meetsErrorPolicy storeOutcome handle onAddTask
  rw [if_neg h]
  cases hm : api.mutate
      (Mutation.createTask s.selectedDate (trim s.newTitle) (orNull (trim s.newNotes))) with
  | error e =>
    simp [Async.bind_eq, Async.bind, Async.tryCatch, Async.modify, Async.awaitMutate,
      Async.awaitFetch, Async.run, hm, messageOr]
  | ok u =>
    cases hf : api.fetchTasks (monthKey tza s.current) with
    | error e =>
      simp [Async.bind_eq, Async.bind, Async.tryCatch, Async.modify, Async.awaitMutate,
        Async.awaitFetch, Async.run, hm, hf, messageOr]
    | ok data =>
      simp [Async.bind_eq, Async.bind, Async.tryCatch, Async.modify, Async.awaitMutate,
        Async.awaitFetch, Async.run, hm, hf]

theorem onToggleDone_policy (api : Api) (tza : Int) (s : State) (t : Task) :
    meetsErrorPolicy s (handle api (fun r => onToggleDone tza r t) s)
      (storeOutcome api (Mutation.updateTask t.id (Patch.isDone (!t.is_done)))
        (monthKey tza s.current)) := by
  unfold meetsErrorPolicy storeOutcome handle onToggleDone
  cases hm : api.mutate (Mutation.updateTask t.id (Patch.isDone (!t.is_done))) with
  | error e =>
    simp [Async.bind_eq, Async.bind, Async.tryCatch, Async.modify, Async.awaitMutate,
      Async.awaitFetch, Async.run, hm, messageOr]
  | ok u =>
    cases hf : api.fetchTasks (monthKey tza s.current) with
    | error e =>
      simp [Async.bind_eq, Async.bind, Async.tryCatch, Async.modify, Async.awaitMutate,
        Async.awaitFetch, Async.run, hm, hf, messageOr]
    | ok data =>
      simp [Async.bind_eq, Async.bind, Async.tryCatch, Async.modify, Async.awaitMutate,
        Async.awaitFetch, Async.run, hm, hf]

theorem handleEditSave_policy (api : Api) (tza : Int) (s : State) (task : Task)
    (h : trim s.editModal.title ≠ "") (ht : s.editModal.task = some task) :
    meetsErrorPolicy s (handle api (handleEditSave tza) s)
      (storeOutcome api
        (Mutation.updateTask task.id
          (Patch.text (trim s.editModal.title) (orNull (trim s.editModal.notes))))
        (monthKey tza s.current)) := by
  unfold meetsErrorPolicy storeOutcome handle handleEditSave
  rw [if_neg h, ht]
  cases hm : api.mutate (Mutation.updateTask task.id
      (Patch.text (trim s.editModal.title) (orNull (trim s.editModal.notes)))) with
  | error e =>
    simp [Async.bind_eq, Async.pure_eq, Async.bind, Async.tryCatch, Async.modify,
      Async.awaitMutate, Async.awaitFetch, Async.run, hm, messageOr]
  | ok u =>
    cases hf : api.fetchTasks (monthKey tza s.current) with
    | error e =>
      simp [Async.bind_eq, Async.pure_eq, Async.bind, Async.tryCatch, Async.modify,
        Async.awaitMutate, Async.awaitFetch, Async.run, hm, hf, messageOr]
    | ok data =>
      simp [Async.bind_eq, Async.pure_eq, Async.bind, Async.tryCatch, Async.modify,
        Async.awaitMutate, Async.awaitFetch, Async.run, hm, hf, closeEditModal]

theorem handleDeleteConfirm_policy (api : Api) (tza : Int) (s : State) (task : Task)
    (ht : s.deleteModal.task = some task) :
    meetsErrorPolicy s (handle api (handleDeleteConfirm tza) s)
      (storeOutcome api (Mutation.deleteTask task.id) (monthKey tza s.current)) := by
  unfold meetsErrorPolicy storeOutcome handle handleDeleteConfirm
  rw [ht]
  cases hm : api.mutate (Mutation.deleteTask task.id) with
  | error e =>
    simp [Async.bind_eq, Async.pure_eq, Async.bind, Async.tryCatch, Async.modify,
      Async.awaitMutate, Async.awaitFetch, Async.run, hm, messageOr]
  | ok u =>
    cases hf : api.fetchTasks (monthKey tza s.current) with
    | error e =>
      simp [Async.bind_eq, Async.pure_eq, Async.bind, Async.tryCatch, Async.modify,
        Async.awaitMutate, Async.awaitFetch, Async.run, hm, hf, messageOr]
    | ok data =>
      simp [Async.bind_eq, Async.pure_eq, Async.bind, Async.tryCatch, Async.modify,
        Async.awaitMutate, Async.awaitFetch, Async.run, hm, hf, closeDeleteModal]

/-- A `try` block whose handler only calls a setter lets no exception out. -/
theorem run_tryCatch_setter (api : Api) (g : JSError → State → State) :
    ∀ (p : Async Unit) (s : State) (log : List StoreCall),
      (Async.run api (Async.tryCatch p fun e => Async.modify (g e)) s log).result
        = Except.ok () := by
  intro p
  induction p with
  | ret a => intro s log; rfl
  | throw e => intro s log; rfl
  | set f k ih => intro s log; exact ih (f s) log
  | fetch m k ih => intro s log; exact ih (api.fetchTasks m) s _
  | mutate m k ih => intro s log; exact ih (api.mutate m) s _

/-- Claim C9: for `onAddTask` and `handleEditSave` with a non-blank title, `onToggleDone`
and `handleDeleteConfirm` (the modals holding the task they act on), and for every outcome
of the store: when the mutation or the refresh after it fails with message `msg`, `tasks`
is as before the operation and `error` is `msg`, or "Error" when `msg` is empty; when both
succeed, `tasks` is the list the refresh returned and `error` is empty; and in every state,
whatever the store does, no exception leaves any of the four operations. -/
theorem mutations_meet_error_policy (api : Api) (tza : Int) (s : State) :
    (trim s.newTitle ≠ "" →
      meetsErrorPolicy s (handle api (onAddTask tza) s)
        (storeOutcome api
          (Mutation.createTask s.selectedDate (trim s.newTitle) (orNull (trim s.newNotes)))
          (monthKey tza s.current)))
    ∧ (∀ t : Task,
      meetsErrorPolicy s (handle api (fun r => onToggleDone tza r t) s)
        (storeOutcome api (Mutation.updateTask t.id (Patch.isDone (!t.is_done)))
          (monthKey tza s.current)))
    ∧ (∀ task : Task, trim s.editModal.title ≠ "" → s.editModal.task = some task →
      meetsErrorPolicy s (handle api (handleEditSave tza) s)
        (storeOutcome api
          (Mutation.updateTask task.id
            (Patch.text (trim s.editModal.title) (orNull (trim s.editModal.notes))))
          (monthKey tza s.current)))
    ∧ (∀ task : Task, s.deleteModal.task = some task →
      meetsErrorPolicy s (handle api (handleDeleteConfirm tza) s)
        (storeOutcome api (Mutation.deleteTask task.id) (monthKey tza s.current)))
    ∧ (handle api (onAddTask tza) s).result = Except.ok ()
    ∧ (∀ t : Task, (handle api (fun r => onToggleDone tza r t) s).result = Except.ok ())
    ∧ (handle api (handleEditSave tza) s).result = Except.ok ()
    ∧ (handle api (handleDeleteConfirm tza) s).result = Except.ok () := by
  refine ⟨onAddTask_policy api tza s, onToggleDone_policy api tza s,
    fun task h ht => handleEditSave_policy api tza s task h ht,
    fun task ht => handleDeleteConfirm_policy api tza s task ht, ?_, ?_, ?_, ?_⟩
  · unfold handle onAddTask
    split
    · rfl
    · exact run_tryCatch_setter api _ _ _ _
  · intro t
    unfold handle onToggleDone
    exact run_tryCatch_setter api _ _ _ _
  · unfold handle handleEditSave
    split
    · rfl
    · exact run_tryCatch_setter api _ _ _ _
  · unfold handle handleDeleteConfirm
    exact run_tryCatch_setter api _ _ _ _

/-- Witness of `mutations_meet_error_policy`: adding "pay rent" against a store whose
refresh returns one task. -/
theorem mutations_meet_error_policy_witness :
    trim (sampleState (some 0) [] "pay rent").newTitle ≠ ""
    ∧ (handle (sampleApi [sampleTask 7 "2024-03-05"]) (onAddTask 0)
        (sampleState (some 0) [] "pay rent")).result = Except.ok () :=
  ⟨by decide,
    ((mutations_meet_error_policy (sampleApi [sampleTask 7 "2024-03-05"]) 0
      (sampleState (some 0) [] "pay rent")).1 (by decide)).1⟩

/-- Counterexample to claim C8 as stated: a fetch requested while March 2024 is displayed
settles when April 2024 is displayed; the response replaces the tasks of April. -/
theorem stale_response_overwrites_tasks :
    monthKey 0 (sampleState (newDate 0 2024 2 1) [] "").current = "2024-03"
    ∧ monthKey 0 (sampleState (newDate 0 2024 3 1) [sampleTask 2 "2024-04-09"] "").current
        = "2024-04"
    ∧ (settleFetch (monthEffect "2024-03") (sampleState (newDate 0 2024 2 1) [] "")
        (Except.ok [sampleTask 1 "2024-03-05"])
        (sampleState (newDate 0 2024 3 1) [sampleTask 2 "2024-04-09"] "")).tasks
        = [sampleTask 1 "2024-03-05"]
    ∧ (sampleState (newDate 0 2024 3 1) [sampleTask 2 "2024-04-09"] "").tasks
        = [sampleTask 2 "2024-04-09"] := by
  decide

/-- Claim C8, amended: a fetch response is applied whatever month is displayed when it
settles: for the month effect, and for the refresh of each mutating operation (title not
blank, modal holding its task), requested in state `s0` and settled in state `s`, `tasks`
becomes the list of the response, even when the displayed month of `s` differs from the one
of `s0`. -/
theorem response_replaces_tasks (tza : Int) (s0 s : State) (data : List Task) :
    (settleFetch (monthEffect (monthKey tza s0.current)) s0 (Except.ok data) s).tasks = data
    ∧ (trim s0.newTitle ≠ "" →
        (settleRefresh (onAddTask tza s0) s0 (Except.ok data) s).tasks = data)
    ∧ (∀ t : Task, (settleRefresh (onToggleDone tza s0 t) s0 (Except.ok data) s).tasks = data)
    ∧ (∀ task : Task, trim s0.editModal.title ≠ "" → s0.editModal.task = some task →
        (settleRefresh (handleEditSave tza s0) s0 (Except.ok data) s).tasks = data)
    ∧ (∀ task : Task, s0.deleteModal.task = some task →
        (settleRefresh (handleDeleteConfirm tza s0) s0 (Except.ok data) s).tasks = data) := by
  refine ⟨rfl, ?_, fun t => rfl, ?_, ?_⟩
  · intro h
    unfold onAddTask
    rw [if_neg h]
    rfl
  · intro task h ht
    unfold handleEditSave
    rw [if_neg h, ht]
    rfl
  · intro task ht
    unfold handleDeleteConfirm
    rw [ht]
    rfl

/-- Witness of `response_replaces_tasks`: the refresh of an add requested in March 2024 and
settled in April 2024. -/
theorem response_replaces_tasks_witness :
    trim (sampleState (newDate 0 2024 2 1) [] "pay rent").newTitle ≠ ""
    ∧ (settleRefresh (onAddTask 0 (sampleState (newDate 0 2024 2 1) [] "pay rent"))
        (sampleState (newDate 0 2024 2 1) [] "pay rent")
        (Except.ok [sampleTask 1 "2024-03-05"])
        (sampleState (newDate 0 2024 3 1) [sampleTask 2 "2024-04-09"] "")).tasks
        = [sampleTask 1 "2024-03-05"] :=
  ⟨by decide,
    (response_replaces_tasks 0 (sampleState (newDate 0 2024 2 1) [] "pay rent")
      (sampleState (newDate 0 2024 3 1) [sampleTask 2 "2024-04-09"] "")
      [sampleTask 1 "2024-03-05"]).2.1 (by decide)⟩
end TaskManager
